import Mathlib

/-!
Shallow embedding of the frame-to-frame correspondence engine of
`src/MotionTracker.cpp` (class `MotionTracker`), together with proofs of the
behavioural properties of `MotionTracker::alignMeshes`.

The registry `currMeshes` and the debug flag are the two data members of the
class; `alignMeshes` is modelled as a pure state transformer that also returns
the list of lines it would print in debug mode.  The external Hungarian solver
(`Hungarian(m).optimiseMinima()`, not part of this translation unit) is
modelled as a function argument producing the list of matched `(row, col)`
pairs; theorems hypothesise the solver contract (a perfect matching over the
padded square matrix) exactly where the specification assumes it.
-/

/-- 2D point (`Point2f` of the source, modelled over the reals). -/
abbrev Pt : Type := ℝ × ℝ

/-- Modelled from the spec: `_dist` (an external helper invoked at line 112 of
`MotionTracker.cpp`, not part of this translation unit) is the Euclidean
distance between two 2D points. -/
noncomputable def _dist (a b : Pt) : ℝ :=
  Real.sqrt ((a.1 - b.1) ^ 2 + (a.2 - b.2) ^ 2)

/-- The sentinel cost `numeric_limits<float>::max()` used to initialise every
cell of the assignment matrix (line 105), i.e. `FLT_MAX = (2^24 - 1) * 2^104`,
as a real number. -/
def FLT_MAX : ℝ := (2 ^ 24 - 1) * 2 ^ 104

/-- Modelled from the spec: `MeshObject` (external type) — a tracked mesh
carrying its point set, its centroid and the `lengthOfAbsence` counter.  The
counter is the only field `alignMeshes` reads or writes directly
(line 152). -/
structure MeshObject where
  points : List Pt
  centroid : Pt
  lengthOfAbsence : ℕ

instance : Inhabited MeshObject :=
  ⟨⟨[], ((0 : ℝ), (0 : ℝ)), 0⟩⟩

/-- Modelled from the spec: `MeshObject::update` (called at line 159) replaces
the geometry of the receiving mesh with the newly detected one, recomputes the
centroid, and resets the absence counter to 0. -/
def MeshObject.update (m other : MeshObject) : MeshObject :=
  ⟨other.points, other.centroid, 0⟩

/-- The in-place increment `this->currMeshes[i0].lengthOfAbsence++`
(line 152). -/
def absenceIncr (m : MeshObject) : MeshObject :=
  { m with lengthOfAbsence := m.lengthOfAbsence + 1 }

/-- Writing one cell of the assignment matrix, `m.at<float>(j,i) = d`
(line 113). -/
def matSet (m : ℕ → ℕ → ℝ) (r c : ℕ) (v : ℝ) : ℕ → ℕ → ℝ :=
  fun i j => if i = r ∧ j = c then v else m i j

/-- Lines 91-117: the N×N assignment matrix.  Every cell starts at the
`FLT_MAX` sentinel (`Mat(N, N, CV_32F, Scalar(numeric_limits<float>::max()))`)
and the nested loop overwrites cell `(j, i)` — row `j` indexing the old mesh,
column `i` indexing the new mesh — with the centroid distance. -/
noncomputable def costMatrix (reg newMeshes : List MeshObject) : ℕ → ℕ → ℝ :=
  let centroids0 := reg.map MeshObject.centroid
  let centroids := newMeshes.map MeshObject.centroid
  (List.range centroids0.length).foldl
    (fun m j =>
      (List.range centroids.length).foldl
        (fun m2 i =>
          matSet m2 j i (_dist (centroids0.getD j default) (centroids.getD i default)))
        m)
    (fun _ _ => FLT_MAX)

/-- The external assignment solver (`Hungarian(m).optimiseMinima()`,
lines 126-127): from the cost matrix and its dimension N it produces the list
of matched `(row, col)` pairs. -/
abbrev Solver := (ℕ → ℕ → ℝ) → ℕ → List (ℕ × ℕ)

/-- One iteration of the classification loop over the solver's pairs
(lines 134-161), acting on the state (current registry, queue of new-mesh
indices pending addition).  The four branches are, in source order: both
indices padding — ignore; row padding — enqueue the new mesh for addition;
column padding — increment the old mesh's absence counter; both real —
update the old mesh with the new one. -/
def classifyStep (N0 N1 : ℕ) (newMeshes : List MeshObject)
    (st : List MeshObject × List ℕ) (p : ℕ × ℕ) : List MeshObject × List ℕ :=
  if N0 ≤ p.1 ∧ N1 ≤ p.2 then
    st
  else if N0 ≤ p.1 then
    (st.1, st.2 ++ [p.2])
  else if N1 ≤ p.2 then
    (st.1.set p.1 (absenceIncr (st.1.getD p.1 default)), st.2)
  else
    (st.1.set p.1 ((st.1.getD p.1 default).update (newMeshes.getD p.2 default)), st.2)

/-- The columns that the classification loop pushes onto `pendingForAdd`: the
new-mesh indices whose matched row is padding (`i0 >= N0`, line 143) while the
column is real (`i1 < N1`). -/
def pendingCols (N0 N1 : ℕ) (mtch : List (ℕ × ℕ)) : List ℕ :=
  mtch.filterMap fun p => if N0 ≤ p.1 ∧ p.2 < N1 then some p.2 else none

/-- The new-mesh indices that end up appended to the registry by a call of
`alignMeshes`: in the bootstrap case (empty registry, lines 81-85) every index,
otherwise exactly the pending columns of the classification loop. -/
def appendedCols (N0 N1 : ℕ) (mtch : List (ℕ × ℕ)) : List ℕ :=
  if N0 = 0 then List.range N1 else pendingCols N0 N1 mtch

/-- Lines 130-176 for a given solver result `mtch`: run the classification
loop on the registry, then drain `pendingForAdd` in FIFO order, appending the
corresponding new meshes. -/
def alignCore (reg newMeshes : List MeshObject) (mtch : List (ℕ × ℕ)) :
    List MeshObject :=
  let st := mtch.foldl (classifyStep reg.length newMeshes.length newMeshes) (reg, [])
  st.1 ++ st.2.map fun n => newMeshes.getD n default

/-- The two data members of class `MotionTracker` that the correspondence
engine touches: the debug flag set by the constructor and the persistent
registry `currMeshes`. -/
structure MotionTracker where
  debug : Bool
  currMeshes : List MeshObject

/-- The constructor `MotionTracker::MotionTracker(bool debug)` (lines 3-6):
stores the flag; the registry starts empty. -/
def MotionTracker.init (debug : Bool) : MotionTracker :=
  ⟨debug, []⟩

/-- `MotionTracker::alignMeshes` (lines 72-181), as a pure state transformer.
The second component of the result collects the lines printed when the debug
flag is on; the `maxDist` parameter is received exactly as in the source.
If the registry is empty the new meshes are copied into it and the function
returns (lines 81-85); otherwise the solver is invoked on the N×N cost matrix
and its pairs are classified, after which the pending new meshes are
appended (lines 87-176). -/
noncomputable def MotionTracker.alignMeshes (t : MotionTracker)
    (newMeshes : List MeshObject) (maxDist : ℝ) (solver : Solver) :
    MotionTracker × List String :=
  let log0 :=
    if t.debug then
      ["...Aligning mesh: " ++ toString t.currMeshes.length ++ " --> " ++
        toString newMeshes.length]
    else []
  if t.currMeshes.length = 0 then
    ({ t with currMeshes := t.currMeshes ++ newMeshes }, log0)
  else
    let N0 := t.currMeshes.length
    let N1 := newMeshes.length
    let N := max N0 N1
    let m := costMatrix t.currMeshes newMeshes
    let log1 := log0 ++
      (if t.debug then ["[M] " ++ toString N ++ " x " ++ toString N] else [])
    let mtch := solver m N
    let nFreshNew := mtch.countP fun p => decide (N0 ≤ p.1 ∧ p.2 < N1)
    let nAbsentOld := mtch.countP fun p => decide (p.1 < N0 ∧ N1 ≤ p.2)
    let nUpdated := mtch.countP fun p => decide (p.1 < N0 ∧ p.2 < N1)
    let log2 := log1 ++
      (if t.debug then
        ["... " ++ toString nUpdated ++ " mesh(es) updated",
         "... " ++ toString nAbsentOld ++ " mesh(es) absent",
         "... " ++ toString nFreshNew ++ " new mesh(es)"]
      else [])
    ({ t with currMeshes := alignCore t.currMeshes newMeshes mtch }, log2)

/-- The contract of the external assignment solver (spec §3, "Assignment
Result"): a perfect matching over the padded N×N matrix — N pairs, all indices
below N, no row repeated, no column repeated. -/
def IsPerfectMatching (N : ℕ) (ms : List (ℕ × ℕ)) : Prop :=
  ms.length = N ∧ (∀ p ∈ ms, p.1 < N ∧ p.2 < N) ∧
    (ms.map Prod.fst).Nodup ∧ (ms.map Prod.snd).Nodup

instance (N : ℕ) (ms : List (ℕ × ℕ)) : Decidable (IsPerfectMatching N ms) := by
  unfold IsPerfectMatching
  infer_instance

/-- Total cost of an assignment over a cost matrix. -/
noncomputable def matchingCost (m : ℕ → ℕ → ℝ) (ms : List (ℕ × ℕ)) : ℝ :=
  (ms.map fun p => m p.1 p.2).sum

/-- Exactly one of two alternatives holds. -/
def ExactlyOne (A B : Prop) : Prop :=
  (A ∨ B) ∧ ¬(A ∧ B)

example : IsPerfectMatching 2 [(0, 1), (1, 0)] := by decide
example : ¬ IsPerfectMatching 2 [(0, 1), (1, 1)] := by decide

/-! ### Generic list lemmas used by the development -/

theorem getD_set_self {α : Type*} (l : List α) (i : ℕ) (v d : α) (h : i < l.length) :
    (l.set i v).getD i d = v := by
  induction l generalizing i with
  | nil => simp at h
  | cons a t ih =>
    cases i with
    | zero => simp
    | succ n => simpa using ih n (by simpa using h)

theorem getD_set_ne {α : Type*} (l : List α) (r i : ℕ) (v d : α) (h : r ≠ i) :
    (l.set r v).getD i d = l.getD i d := by
  induction l generalizing r i with
  | nil => simp
  | cons a t ih =>
    cases r with
    | zero =>
      cases i with
      | zero => exact absurd rfl h
      | succ n => simp
    | succ m =>
      cases i with
      | zero => simp
      | succ n => simpa using ih m n (by omega)

theorem getD_map_lt {α β : Type*} (f : α → β) (l : List α) (i : ℕ) (d : α) (e : β)
    (h : i < l.length) : (l.map f).getD i e = f (l.getD i d) := by
  induction l generalizing i with
  | nil => simp at h
  | cons a t ih =>
    cases i with
    | zero => simp
    | succ n => simpa using ih n (by simpa using h)

theorem map_getD_range {α : Type*} (l : List α) (d : α) :
    (List.range l.length).map (fun i => l.getD i d) = l := by
  induction l with
  | nil => simp
  | cons a t ih =>
    have : List.range (t.length + 1) = 0 :: (List.range t.length).map Nat.succ := by
      simpa using List.range_succ_eq_map t.length
    have h2 : ((fun i => (a :: t).getD i d) ∘ Nat.succ) = fun i => t.getD i d := by
      funext i; simp
    simp only [List.length_cons, this, List.map_cons, List.map_map, h2, ih]
    simp

/-! ### Properties of the solver contract -/

theorem pm_mem_lt {N : ℕ} {ms : List (ℕ × ℕ)} (h : IsPerfectMatching N ms)
    {p : ℕ × ℕ} (hp : p ∈ ms) : p.1 < N ∧ p.2 < N :=
  h.2.1 p hp

theorem pm_row_exists {N : ℕ} {ms : List (ℕ × ℕ)} (h : IsPerfectMatching N ms)
    {i : ℕ} (hi : i < N) : ∃ j, (i, j) ∈ ms := by
  have hnd := h.2.2.1
  have hlen : (ms.map Prod.fst).length = N := by simp [h.1]
  have hsub : (ms.map Prod.fst).toFinset ⊆ Finset.range N := by
    intro x hx
    rw [List.mem_toFinset] at hx
    rcases List.mem_map.1 hx with ⟨p, hp, rfl⟩
    exact Finset.mem_range.2 (h.2.1 p hp).1
  have hcard : (Finset.range N).card ≤ (ms.map Prod.fst).toFinset.card := by
    rw [List.toFinset_card_of_nodup hnd, hlen, Finset.card_range]
  have heq := Finset.eq_of_subset_of_card_le hsub hcard
  have hmem : i ∈ (ms.map Prod.fst).toFinset := heq ▸ Finset.mem_range.2 hi
  rw [List.mem_toFinset] at hmem
  rcases List.mem_map.1 hmem with ⟨p, hp, hfst⟩
  exact ⟨p.2, by rw [← hfst]; simpa using hp⟩

theorem pm_col_exists {N : ℕ} {ms : List (ℕ × ℕ)} (h : IsPerfectMatching N ms)
    {j : ℕ} (hj : j < N) : ∃ i, (i, j) ∈ ms := by
  have hnd := h.2.2.2
  have hlen : (ms.map Prod.snd).length = N := by simp [h.1]
  have hsub : (ms.map Prod.snd).toFinset ⊆ Finset.range N := by
    intro x hx
    rw [List.mem_toFinset] at hx
    rcases List.mem_map.1 hx with ⟨p, hp, rfl⟩
    exact Finset.mem_range.2 (h.2.1 p hp).2
  have hcard : (Finset.range N).card ≤ (ms.map Prod.snd).toFinset.card := by
    rw [List.toFinset_card_of_nodup hnd, hlen, Finset.card_range]
  have heq := Finset.eq_of_subset_of_card_le hsub hcard
  have hmem : j ∈ (ms.map Prod.snd).toFinset := heq ▸ Finset.mem_range.2 hj
  rw [List.mem_toFinset] at hmem
  rcases List.mem_map.1 hmem with ⟨p, hp, hsnd⟩
  exact ⟨p.1, by rw [← hsnd]; simpa using hp⟩

theorem pm_row_unique {N : ℕ} {ms : List (ℕ × ℕ)} (h : IsPerfectMatching N ms)
    {i j j' : ℕ} (h1 : (i, j) ∈ ms) (h2 : (i, j') ∈ ms) : j = j' :=
  congrArg Prod.snd (List.inj_on_of_nodup_map h.2.2.1 h1 h2 rfl)

theorem pm_col_unique {N : ℕ} {ms : List (ℕ × ℕ)} (h : IsPerfectMatching N ms)
    {i i' j : ℕ} (h1 : (i, j) ∈ ms) (h2 : (i', j) ∈ ms) : i = i' :=
  congrArg Prod.fst (List.inj_on_of_nodup_map h.2.2.2 h1 h2 rfl)

/-! ### Behaviour of the classification loop -/

theorem classifyStep_len (N0 N1 : ℕ) (newMeshes : List MeshObject)
    (st : List MeshObject × List ℕ) (p : ℕ × ℕ) :
    (classifyStep N0 N1 newMeshes st p).1.length = st.1.length := by
  unfold classifyStep
  split
  · rfl
  split
  · rfl
  split <;> simp

theorem classifyStep_getD_ne (N0 N1 : ℕ) (newMeshes : List MeshObject)
    (st : List MeshObject × List ℕ) (p : ℕ × ℕ) (i : ℕ) (hne : p.1 ≠ i) :
    (classifyStep N0 N1 newMeshes st p).1.getD i default = st.1.getD i default := by
  unfold classifyStep
  split
  · rfl
  split
  · rfl
  split <;> exact getD_set_ne _ _ _ _ _ hne

theorem classify_len (N0 N1 : ℕ) (newMeshes : List MeshObject)
    (mtch : List (ℕ × ℕ)) :
    ∀ st : List MeshObject × List ℕ,
      (mtch.foldl (classifyStep N0 N1 newMeshes) st).1.length = st.1.length := by
  induction mtch with
  | nil => intro st; rfl
  | cons p rest ih =>
    intro st
    rw [List.foldl_cons, ih, classifyStep_len]

theorem classify_pending (N0 N1 : ℕ) (newMeshes : List MeshObject)
    (mtch : List (ℕ × ℕ)) :
    ∀ st : List MeshObject × List ℕ,
      (mtch.foldl (classifyStep N0 N1 newMeshes) st).2 = st.2 ++ pendingCols N0 N1 mtch := by
  induction mtch with
  | nil => intro st; simp [pendingCols]
  | cons p rest ih =>
    intro st
    rw [List.foldl_cons, ih]
    by_cases hA : N0 ≤ p.1 <;> by_cases hB : N1 ≤ p.2
    · simp [classifyStep, pendingCols, List.filterMap_cons, hA, hB, Nat.not_lt.mpr hB]
    · simp [classifyStep, pendingCols, List.filterMap_cons, hA, hB, Nat.lt_of_not_le hB]
    · simp [classifyStep, pendingCols, List.filterMap_cons, hA, hB]
    · simp [classifyStep, pendingCols, List.filterMap_cons, hA, hB]

theorem classify_getD_not_mem (N0 N1 : ℕ) (newMeshes : List MeshObject)
    (mtch : List (ℕ × ℕ)) :
    ∀ (st : List MeshObject × List ℕ) (i : ℕ), i ∉ mtch.map Prod.fst →
      (mtch.foldl (classifyStep N0 N1 newMeshes) st).1.getD i default =
        st.1.getD i default := by
  induction mtch with
  | nil => intro st i _; rfl
  | cons p rest ih =>
    intro st i hi
    have hne : p.1 ≠ i := fun h => hi (List.mem_map.2 ⟨p, List.mem_cons_self p rest, h⟩)
    have hrest : i ∉ rest.map Prod.fst := fun h =>
      hi (by rw [List.map_cons]; exact List.mem_cons_of_mem _ h)
    rw [List.foldl_cons, ih _ _ hrest, classifyStep_getD_ne _ _ _ _ _ _ hne]

theorem classify_getD_mem (N0 N1 : ℕ) (newMeshes : List MeshObject)
    (mtch : List (ℕ × ℕ)) :
    ∀ (st : List MeshObject × List ℕ) (i j : ℕ),
      (mtch.map Prod.fst).Nodup → (i, j) ∈ mtch → i < N0 → i < st.1.length →
      (mtch.foldl (classifyStep N0 N1 newMeshes) st).1.getD i default =
        (if j < N1 then (st.1.getD i default).update (newMeshes.getD j default)
         else absenceIncr (st.1.getD i default)) := by
  induction mtch with
  | nil => intro st i j _ hmem; exact absurd hmem (List.not_mem_nil _)
  | cons p rest ih =>
    intro st i j hnd hmem hiN0 hilen
    rcases List.mem_cons.1 hmem with heq | hmem'
    · have hp1 : p.1 = i := by rw [← heq]
      have hp2 : p.2 = j := by rw [← heq]
      have hrest : i ∉ rest.map Prod.fst := by
        rw [List.map_cons] at hnd
        have := (List.nodup_cons.1 hnd).1
        rwa [hp1] at this
      rw [List.foldl_cons, classify_getD_not_mem _ _ _ _ _ _ hrest]
      unfold classifyStep
      rw [hp1, hp2]
      have hnotA : ¬ (N0 ≤ i ∧ N1 ≤ j) := fun hc => absurd hiN0 (Nat.not_lt.mpr hc.1)
      have hnotA2 : ¬ N0 ≤ i := Nat.not_le.mpr hiN0
      by_cases hB : N1 ≤ j
      · simp only [if_neg hnotA, if_neg hnotA2, if_pos hB,
          if_neg (Nat.not_lt.mpr hB)]
        exact getD_set_self _ _ _ _ hilen
      · simp only [if_neg hnotA, if_neg hnotA2, if_neg hB,
          if_pos (Nat.lt_of_not_le hB)]
        exact getD_set_self _ _ _ _ hilen
    · have hirow : i ∈ rest.map Prod.fst := List.mem_map.2 ⟨(i, j), hmem', rfl⟩
      rw [List.map_cons] at hnd
      have hne : p.1 ≠ i := by
        intro h
        have := (List.nodup_cons.1 hnd).1
        rw [h] at this
        exact this hirow
      have hndrest : (rest.map Prod.fst).Nodup := (List.nodup_cons.1 hnd).2
      have hlen' : i < (classifyStep N0 N1 newMeshes st p).1.length := by
        rw [classifyStep_len]; exact hilen
      rw [List.foldl_cons, ih _ i j hndrest hmem' hiN0 hlen',
        classifyStep_getD_ne _ _ _ _ _ _ hne]

/-! ### Behaviour of the full reconciliation (classification plus appends) -/

theorem alignCore_length (reg newMeshes : List MeshObject) (mtch : List (ℕ × ℕ)) :
    (alignCore reg newMeshes mtch).length
      = reg.length + (pendingCols reg.length newMeshes.length mtch).length := by
  unfold alignCore
  simp only [List.length_append, List.length_map, classify_len, classify_pending]
  simp

theorem alignCore_take (reg newMeshes : List MeshObject) (mtch : List (ℕ × ℕ)) :
    (alignCore reg newMeshes mtch).take reg.length
      = (mtch.foldl (classifyStep reg.length newMeshes.length newMeshes) (reg, [])).1 := by
  unfold alignCore
  exact List.take_left' (classify_len _ _ _ _ _)

theorem alignCore_drop (reg newMeshes : List MeshObject) (mtch : List (ℕ × ℕ)) :
    (alignCore reg newMeshes mtch).drop reg.length
      = (pendingCols reg.length newMeshes.length mtch).map fun n => newMeshes.getD n default := by
  show ((List.foldl (classifyStep reg.length newMeshes.length newMeshes) (reg, []) mtch).1
      ++ ((List.foldl (classifyStep reg.length newMeshes.length newMeshes) (reg, []) mtch).2.map
        fun n => newMeshes.getD n default)).drop reg.length = _
  rw [classify_pending, List.nil_append]
  exact List.drop_left' (classify_len _ _ _ _ _)

theorem alignCore_getD_mem (reg newMeshes : List MeshObject) (mtch : List (ℕ × ℕ))
    (i j : ℕ) (hnd : (mtch.map Prod.fst).Nodup) (hmem : (i, j) ∈ mtch)
    (hi : i < reg.length) :
    (alignCore reg newMeshes mtch).getD i default =
      (if j < newMeshes.length then
        (reg.getD i default).update (newMeshes.getD j default)
      else absenceIncr (reg.getD i default)) := by
  unfold alignCore
  rw [List.getD_append _ _ _ _ (by rw [classify_len]; exact hi)]
  exact classify_getD_mem _ _ _ _ _ _ _ hnd hmem hi hi

theorem alignCore_getD_not_mem (reg newMeshes : List MeshObject) (mtch : List (ℕ × ℕ))
    (i : ℕ) (hrow : i ∉ mtch.map Prod.fst) (hi : i < reg.length) :
    (alignCore reg newMeshes mtch).getD i default = reg.getD i default := by
  unfold alignCore
  rw [List.getD_append _ _ _ _ (by rw [classify_len]; exact hi)]
  exact classify_getD_not_mem _ _ _ _ _ _ hrow

/-! ### The cost matrix in closed form, and metric facts -/

theorem matSet_apply (m : ℕ → ℕ → ℝ) (r c : ℕ) (v : ℝ) (a b : ℕ) :
    matSet m r c v a b = if a = r ∧ b = c then v else m a b := rfl

theorem foldl_matSet_row (r : ℕ) (g : ℕ → ℝ) :
    ∀ (n : ℕ) (m0 : ℕ → ℕ → ℝ) (a b : ℕ),
      ((List.range n).foldl (fun m2 i => matSet m2 r i (g i)) m0) a b
        = if a = r ∧ b < n then g b else m0 a b := by
  intro n
  induction n with
  | zero => intro m0 a b; simp
  | succ k ih =>
    intro m0 a b
    rw [List.range_succ, List.foldl_append, List.foldl_cons, List.foldl_nil,
      matSet_apply, ih]
    by_cases ha : a = r
    · by_cases hbe : b = k
      · have h1 : b < k + 1 := by omega
        simp [ha, hbe, h1]
      · by_cases hbk : b < k
        · have h1 : b < k + 1 := by omega
          simp [ha, hbe, hbk, h1]
        · have h1 : ¬ b < k + 1 := by omega
          simp [ha, hbe, hbk, h1]
    · simp [ha]

theorem foldl_matSet_rows (c0s c1s : List Pt) :
    ∀ (n0 : ℕ) (m0 : ℕ → ℕ → ℝ) (a b : ℕ),
      ((List.range n0).foldl
          (fun m j =>
            (List.range c1s.length).foldl
              (fun m2 i => matSet m2 j i (_dist (c0s.getD j default) (c1s.getD i default))) m)
          m0) a b
        = if a < n0 ∧ b < c1s.length then _dist (c0s.getD a default) (c1s.getD b default)
          else m0 a b := by
  intro n0
  induction n0 with
  | zero => intro m0 a b; simp
  | succ k ih =>
    intro m0 a b
    rw [List.range_succ, List.foldl_append, List.foldl_cons, List.foldl_nil,
      foldl_matSet_row, ih]
    by_cases hb : b < c1s.length
    · by_cases hae : a = k
      · have h1 : a < k + 1 := by omega
        have h2 : ¬ a < k := by omega
        simp [hae, hb, h1, h2]
      · by_cases hak : a < k
        · have h1 : a < k + 1 := by omega
          simp [hae, hb, h1, hak]
        · have h1 : ¬ a < k + 1 := by omega
          simp [hae, hb, h1, hak]
    · simp [hb]

theorem costMatrix_apply (reg newMeshes : List MeshObject) (a b : ℕ) :
    costMatrix reg newMeshes a b
      = if a < reg.length ∧ b < newMeshes.length then
          _dist ((reg.getD a default).centroid) ((newMeshes.getD b default).centroid)
        else FLT_MAX := by
  show ((List.range (reg.map MeshObject.centroid).length).foldl
      (fun m j =>
        (List.range (newMeshes.map MeshObject.centroid).length).foldl
          (fun m2 i =>
            matSet m2 j i
              (_dist ((reg.map MeshObject.centroid).getD j default)
                ((newMeshes.map MeshObject.centroid).getD i default))) m)
      (fun _ _ => FLT_MAX)) a b = _
  rw [foldl_matSet_rows]
  simp only [List.length_map]
  by_cases ha : a < reg.length <;> by_cases hb : b < newMeshes.length
  · rw [if_pos ⟨ha, hb⟩, if_pos ⟨ha, hb⟩,
      getD_map_lt MeshObject.centroid reg a default _ ha,
      getD_map_lt MeshObject.centroid newMeshes b default _ hb]
  · rw [if_neg (by tauto), if_neg (by tauto)]
  · rw [if_neg (by tauto), if_neg (by tauto)]
  · rw [if_neg (by tauto), if_neg (by tauto)]

theorem _dist_self (a : Pt) : _dist a a = 0 := by
  unfold _dist
  simp [Real.sqrt_zero]

theorem _dist_nonneg (a b : Pt) : 0 ≤ _dist a b :=
  Real.sqrt_nonneg _

theorem _dist_eq_zero_iff (a b : Pt) : _dist a b = 0 ↔ a = b := by
  unfold _dist
  rw [Real.sqrt_eq_zero (by positivity)]
  constructor
  · intro h
    have h1 : (a.1 - b.1) ^ 2 = 0 := by nlinarith [sq_nonneg (a.1 - b.1), sq_nonneg (a.2 - b.2)]
    have h2 : (a.2 - b.2) ^ 2 = 0 := by nlinarith [sq_nonneg (a.1 - b.1), sq_nonneg (a.2 - b.2)]
    have e1 : a.1 = b.1 := by
      have := pow_eq_zero_iff (n := 2) (by norm_num) |>.1 h1
      linarith
    have e2 : a.2 = b.2 := by
      have := pow_eq_zero_iff (n := 2) (by norm_num) |>.1 h2
      linarith
    exact Prod.ext e1 e2
  · intro h
    subst h
    simp

theorem FLT_MAX_pos : 0 < FLT_MAX := by
  norm_num [FLT_MAX]

theorem dist_lt_sentinel (a b : Pt)
    (ha1 : |a.1| ≤ FLT_MAX / 4) (ha2 : |a.2| ≤ FLT_MAX / 4)
    (hb1 : |b.1| ≤ FLT_MAX / 4) (hb2 : |b.2| ≤ FLT_MAX / 4) :
    _dist a b < FLT_MAX := by
  unfold _dist
  rw [Real.sqrt_lt' FLT_MAX_pos]
  have k1 : |a.1 - b.1| ≤ FLT_MAX / 2 := by
    calc |a.1 - b.1| ≤ |a.1| + |b.1| := abs_sub a.1 b.1
    _ ≤ FLT_MAX / 2 := by linarith
  have k2 : |a.2 - b.2| ≤ FLT_MAX / 2 := by
    calc |a.2 - b.2| ≤ |a.2| + |b.2| := abs_sub a.2 b.2
    _ ≤ FLT_MAX / 2 := by linarith
  have q1 : (a.1 - b.1) ^ 2 ≤ (FLT_MAX / 2) ^ 2 := by
    have hc := abs_le.1 k1
    exact sq_le_sq' hc.1 hc.2
  have q2 : (a.2 - b.2) ^ 2 ≤ (FLT_MAX / 2) ^ 2 := by
    have hc := abs_le.1 k2
    exact sq_le_sq' hc.1 hc.2
  nlinarith [FLT_MAX_pos]

theorem costMatrix_nonneg (reg newMeshes : List MeshObject) (a b : ℕ) :
    0 ≤ costMatrix reg newMeshes a b := by
  rw [costMatrix_apply]
  split
  · exact _dist_nonneg _ _
  · exact le_of_lt FLT_MAX_pos

theorem matchingCost_nonneg (m : ℕ → ℕ → ℝ) (ms : List (ℕ × ℕ))
    (h : ∀ p ∈ ms, 0 ≤ m p.1 p.2) : 0 ≤ matchingCost m ms := by
  unfold matchingCost
  apply List.sum_nonneg
  intro x hx
  rcases List.mem_map.1 hx with ⟨p, hp, rfl⟩
  exact h p hp

theorem sum_eq_zero_of_nonneg (l : List ℝ) (h : ∀ x ∈ l, 0 ≤ x) (hs : l.sum ≤ 0) :
    ∀ x ∈ l, x = 0 := by
  induction l with
  | nil => intro x hx; exact absurd hx (List.not_mem_nil _)
  | cons a t ih =>
    have hts : 0 ≤ t.sum := List.sum_nonneg fun x hx => h x (List.mem_cons_of_mem _ hx)
    have ha : 0 ≤ a := h a (List.mem_cons_self _ _)
    rw [List.sum_cons] at hs
    intro x hx
    rcases List.mem_cons.1 hx with rfl | hx'
    · linarith
    · exact ih (fun y hy => h y (List.mem_cons_of_mem _ hy)) (by linarith) x hx'

/-! ### Bridging `alignMeshes` to its two paths -/

theorem alignMeshes_bootstrap (t : MotionTracker) (newMeshes : List MeshObject)
    (maxDist : ℝ) (solver : Solver) (h : t.currMeshes.length = 0) :
    ((t.alignMeshes newMeshes maxDist solver).1).currMeshes = t.currMeshes ++ newMeshes := by
  simp [MotionTracker.alignMeshes, h]

theorem alignMeshes_currMeshes (t : MotionTracker) (newMeshes : List MeshObject)
    (maxDist : ℝ) (solver : Solver) (h : t.currMeshes.length ≠ 0) :
    ((t.alignMeshes newMeshes maxDist solver).1).currMeshes
      = alignCore t.currMeshes newMeshes
          (solver (costMatrix t.currMeshes newMeshes)
            (max t.currMeshes.length newMeshes.length)) := by
  simp [MotionTracker.alignMeshes, h]

theorem getD_mem {α : Type*} (l : List α) (i : ℕ) (d : α) (h : i < l.length) :
    l.getD i d ∈ l := by
  rw [List.getD_eq_getElem l d h]
  exact List.getElem_mem h

/-! ### The claims -/

/-- Claim C6: the `maxDisplacement` bound is passed to `alignMeshes` but never
applied: for any two values of the bound the call yields the identical result
(final tracker state and debug report alike), for every registry, mesh list
and solver. -/
theorem maxDisplacement_unused (t : MotionTracker) (newMeshes : List MeshObject)
    (d1 d2 : ℝ) (solver : Solver) :
    t.alignMeshes newMeshes d1 solver = t.alignMeshes newMeshes d2 solver := rfl

/-- Claim C7: the debug flag stored by the constructor only selects the
reported log lines; the matching outcome and the final registry are identical
with the flag on or off, for every registry, mesh list, displacement bound and
solver. -/
theorem debug_flag_no_influence (d1 d2 : Bool) (reg newMeshes : List MeshObject)
    (maxDist : ℝ) (solver : Solver) :
    (((MotionTracker.mk d1 reg).alignMeshes newMeshes maxDist solver).1).currMeshes
      = (((MotionTracker.mk d2 reg).alignMeshes newMeshes maxDist solver).1).currMeshes := by
  by_cases h : reg.length = 0
  · rw [alignMeshes_bootstrap _ _ _ _ h, alignMeshes_bootstrap _ _ _ _ h]
  · rw [alignMeshes_currMeshes _ _ _ _ h, alignMeshes_currMeshes _ _ _ _ h]

/-- Claim C10: in the bootstrap case (empty registry) `alignMeshes` appends
each input mesh to the registry unmodified — the resulting registry is exactly
the input list, every field (including `lengthOfAbsence`) untouched. -/
theorem bootstrap_appends_unmodified (debug : Bool) (newMeshes : List MeshObject)
    (maxDist : ℝ) (solver : Solver) :
    (((MotionTracker.mk debug []).alignMeshes newMeshes maxDist solver).1).currMeshes
      = newMeshes := by
  rw [alignMeshes_bootstrap (MotionTracker.mk debug []) newMeshes maxDist solver rfl]
  exact List.nil_append newMeshes

/-- Claim C3 counterexample: the bootstrap path copies each input mesh
verbatim (`copy(newMeshes.begin(), ..., back_inserter(this->currMeshes))`,
line 83) without resetting the absence counter, so a new mesh arriving with
`lengthOfAbsence = 1` yields a registry entry with `lengthOfAbsence = 1`,
refuting "every entry has lengthOfAbsence = 0" for arbitrary input meshes. -/
theorem bootstrap_no_reset_counterexample :
    (((MotionTracker.mk false []).alignMeshes [⟨[], ((0 : ℝ), (0 : ℝ)), 1⟩] 0
        (fun _ _ => [])).1).currMeshes.length = 1
    ∧ ¬ (∀ m ∈ (((MotionTracker.mk false []).alignMeshes [⟨[], ((0 : ℝ), (0 : ℝ)), 1⟩] 0
        (fun _ _ => [])).1).currMeshes, m.lengthOfAbsence = 0) := by
  constructor
  · rw [alignMeshes_bootstrap (MotionTracker.mk false []) _ 0 _ rfl]
    rfl
  · intro hall
    have hm : (⟨[], ((0 : ℝ), (0 : ℝ)), 1⟩ : MeshObject)
        ∈ (((MotionTracker.mk false []).alignMeshes [⟨[], ((0 : ℝ), (0 : ℝ)), 1⟩] 0
          (fun _ _ => [])).1).currMeshes := by
      rw [alignMeshes_bootstrap (MotionTracker.mk false []) _ 0 _ rfl]
      exact List.mem_singleton.2 rfl
    have := hall _ hm
    simp at this

/-- Claim C3 (amended): with an empty registry `alignMeshes` copies the k new
meshes into the registry and never consults the solver, so the registry ends
with exactly k entries, each a verbatim copy of its input mesh; in particular
whenever every input mesh is fresh (`lengthOfAbsence = 0`, as holds for meshes
constructed by the detection pipeline) every resulting entry has
`lengthOfAbsence = 0`. -/
theorem bootstrap_fresh (debug : Bool) (newMeshes : List MeshObject) (maxDist : ℝ)
    (solver : Solver) (hfresh : ∀ m ∈ newMeshes, m.lengthOfAbsence = 0) :
    (((MotionTracker.mk debug []).alignMeshes newMeshes maxDist solver).1).currMeshes.length
        = newMeshes.length
    ∧ (∀ m ∈ (((MotionTracker.mk debug []).alignMeshes newMeshes maxDist solver).1).currMeshes,
        m.lengthOfAbsence = 0)
    ∧ ∀ solver' : Solver,
        (((MotionTracker.mk debug []).alignMeshes newMeshes maxDist solver).1).currMeshes
          = (((MotionTracker.mk debug []).alignMeshes newMeshes maxDist solver').1).currMeshes := by
  refine ⟨?_, ?_, ?_⟩
  · rw [alignMeshes_bootstrap (MotionTracker.mk debug []) newMeshes maxDist solver rfl,
      List.nil_append]
  · intro m hm
    rw [alignMeshes_bootstrap (MotionTracker.mk debug []) newMeshes maxDist solver rfl,
      List.nil_append] at hm
    exact hfresh m hm
  · intro solver'
    rw [alignMeshes_bootstrap (MotionTracker.mk debug []) newMeshes maxDist solver rfl,
      alignMeshes_bootstrap (MotionTracker.mk debug []) newMeshes maxDist solver' rfl]

/-- Witness for the amended claim C3 at a concrete fresh input. -/
theorem bootstrap_fresh_witness :
    (∀ m ∈ [(⟨[((5 : ℝ), (6 : ℝ))], ((5 : ℝ), (6 : ℝ)), 0⟩ : MeshObject)],
      m.lengthOfAbsence = 0)
    ∧ ((((MotionTracker.mk true []).alignMeshes
          [(⟨[((5 : ℝ), (6 : ℝ))], ((5 : ℝ), (6 : ℝ)), 0⟩ : MeshObject)] 7
          (fun _ _ => [(0, 0)])).1).currMeshes.length = 1
      ∧ (∀ m ∈ (((MotionTracker.mk true []).alignMeshes
          [(⟨[((5 : ℝ), (6 : ℝ))], ((5 : ℝ), (6 : ℝ)), 0⟩ : MeshObject)] 7
          (fun _ _ => [(0, 0)])).1).currMeshes, m.lengthOfAbsence = 0)
      ∧ ∀ solver' : Solver,
          (((MotionTracker.mk true []).alignMeshes
            [(⟨[((5 : ℝ), (6 : ℝ))], ((5 : ℝ), (6 : ℝ)), 0⟩ : MeshObject)] 7
            (fun _ _ => [(0, 0)])).1).currMeshes
            = (((MotionTracker.mk true []).alignMeshes
              [(⟨[((5 : ℝ), (6 : ℝ))], ((5 : ℝ), (6 : ℝ)), 0⟩ : MeshObject)] 7
              solver').1).currMeshes) := by
  constructor
  · intro m hm
    rcases List.mem_singleton.1 hm with rfl
    rfl
  · exact bootstrap_fresh true _ 7 _ (by
      intro m hm
      rcases List.mem_singleton.1 hm with rfl
      rfl)

/-- Claim C2: with at least one old and one new mesh, the matrix handed to the
solver is `costMatrix reg newMeshes` at dimension N = max(N0, N1): cell (i, j)
with i < N0, j < N1 (row = old mesh, column = new mesh) holds the Euclidean
distance between `reg[i].centroid` and `newMeshes[j].centroid`, every other
cell holds the `FLT_MAX` sentinel, and — whenever every centroid coordinate is
bounded by `FLT_MAX / 4` in magnitude, as any coordinate arising from a frame
is — every real cell is strictly below the sentinel.  The last conjunct states
that `alignMeshes` consults the solver only through this matrix and this
dimension. -/
theorem cost_matrix_spec (debug : Bool) (reg newMeshes : List MeshObject) (maxDist : ℝ)
    (h0 : 1 ≤ reg.length) (h1 : 1 ≤ newMeshes.length)
    (hbound : ∀ x ∈ reg ++ newMeshes,
      |x.centroid.1| ≤ FLT_MAX / 4 ∧ |x.centroid.2| ≤ FLT_MAX / 4) :
    (∀ i j, i < reg.length → j < newMeshes.length →
      costMatrix reg newMeshes i j
        = _dist ((reg.getD i default).centroid) ((newMeshes.getD j default).centroid))
    ∧ (∀ i j, ¬(i < reg.length ∧ j < newMeshes.length) →
        costMatrix reg newMeshes i j = FLT_MAX)
    ∧ (∀ i j, i < reg.length → j < newMeshes.length →
        costMatrix reg newMeshes i j < FLT_MAX)
    ∧ (∀ solver solver' : Solver,
        solver (costMatrix reg newMeshes) (max reg.length newMeshes.length)
          = solver' (costMatrix reg newMeshes) (max reg.length newMeshes.length) →
        (MotionTracker.mk debug reg).alignMeshes newMeshes maxDist solver
          = (MotionTracker.mk debug reg).alignMeshes newMeshes maxDist solver') := by
  have hne : ¬ reg.length = 0 := by omega
  refine ⟨?_, ?_, ?_, ?_⟩
  · intro i j hi hj
    rw [costMatrix_apply, if_pos ⟨hi, hj⟩]
  · intro i j hij
    rw [costMatrix_apply, if_neg hij]
  · intro i j hi hj
    rw [costMatrix_apply, if_pos ⟨hi, hj⟩]
    have hm1 := hbound (reg.getD i default) (List.mem_append_left _ (getD_mem _ _ _ hi))
    have hm2 := hbound (newMeshes.getD j default)
      (List.mem_append_right _ (getD_mem _ _ _ hj))
    exact dist_lt_sentinel _ _ hm1.1 hm1.2 hm2.1 hm2.2
  · intro solver solver' hsol
    simp only [MotionTracker.alignMeshes, hne, if_false, hsol]

/-- Witness for claim C2 at a concrete one-by-one instance. -/
theorem cost_matrix_spec_witness :
    (1 ≤ [(⟨[((0 : ℝ), (0 : ℝ))], ((0 : ℝ), (0 : ℝ)), 0⟩ : MeshObject)].length
      ∧ 1 ≤ [(⟨[((3 : ℝ), (4 : ℝ))], ((3 : ℝ), (4 : ℝ)), 0⟩ : MeshObject)].length
      ∧ ∀ x ∈ [(⟨[((0 : ℝ), (0 : ℝ))], ((0 : ℝ), (0 : ℝ)), 0⟩ : MeshObject)]
            ++ [(⟨[((3 : ℝ), (4 : ℝ))], ((3 : ℝ), (4 : ℝ)), 0⟩ : MeshObject)],
          |x.centroid.1| ≤ FLT_MAX / 4 ∧ |x.centroid.2| ≤ FLT_MAX / 4)
    ∧ ((∀ i j, i < [(⟨[((0 : ℝ), (0 : ℝ))], ((0 : ℝ), (0 : ℝ)), 0⟩ : MeshObject)].length →
          j < [(⟨[((3 : ℝ), (4 : ℝ))], ((3 : ℝ), (4 : ℝ)), 0⟩ : MeshObject)].length →
          costMatrix [(⟨[((0 : ℝ), (0 : ℝ))], ((0 : ℝ), (0 : ℝ)), 0⟩ : MeshObject)]
              [(⟨[((3 : ℝ), (4 : ℝ))], ((3 : ℝ), (4 : ℝ)), 0⟩ : MeshObject)] i j
            = _dist (([(⟨[((0 : ℝ), (0 : ℝ))], ((0 : ℝ), (0 : ℝ)), 0⟩ : MeshObject)].getD i
                default).centroid)
              (([(⟨[((3 : ℝ), (4 : ℝ))], ((3 : ℝ), (4 : ℝ)), 0⟩ : MeshObject)].getD j
                default).centroid))
      ∧ (∀ i j, ¬(i < [(⟨[((0 : ℝ), (0 : ℝ))], ((0 : ℝ), (0 : ℝ)), 0⟩ : MeshObject)].length
            ∧ j < [(⟨[((3 : ℝ), (4 : ℝ))], ((3 : ℝ), (4 : ℝ)), 0⟩ : MeshObject)].length) →
          costMatrix [(⟨[((0 : ℝ), (0 : ℝ))], ((0 : ℝ), (0 : ℝ)), 0⟩ : MeshObject)]
              [(⟨[((3 : ℝ), (4 : ℝ))], ((3 : ℝ), (4 : ℝ)), 0⟩ : MeshObject)] i j = FLT_MAX)
      ∧ (∀ i j, i < [(⟨[((0 : ℝ), (0 : ℝ))], ((0 : ℝ), (0 : ℝ)), 0⟩ : MeshObject)].length →
          j < [(⟨[((3 : ℝ), (4 : ℝ))], ((3 : ℝ), (4 : ℝ)), 0⟩ : MeshObject)].length →
          costMatrix [(⟨[((0 : ℝ), (0 : ℝ))], ((0 : ℝ), (0 : ℝ)), 0⟩ : MeshObject)]
              [(⟨[((3 : ℝ), (4 : ℝ))], ((3 : ℝ), (4 : ℝ)), 0⟩ : MeshObject)] i j < FLT_MAX)
      ∧ (∀ solver solver' : Solver,
          solver (costMatrix [(⟨[((0 : ℝ), (0 : ℝ))], ((0 : ℝ), (0 : ℝ)), 0⟩ : MeshObject)]
              [(⟨[((3 : ℝ), (4 : ℝ))], ((3 : ℝ), (4 : ℝ)), 0⟩ : MeshObject)])
              (max [(⟨[((0 : ℝ), (0 : ℝ))], ((0 : ℝ), (0 : ℝ)), 0⟩ : MeshObject)].length
                [(⟨[((3 : ℝ), (4 : ℝ))], ((3 : ℝ), (4 : ℝ)), 0⟩ : MeshObject)].length)
            = solver' (costMatrix [(⟨[((0 : ℝ), (0 : ℝ))], ((0 : ℝ), (0 : ℝ)), 0⟩ : MeshObject)]
              [(⟨[((3 : ℝ), (4 : ℝ))], ((3 : ℝ), (4 : ℝ)), 0⟩ : MeshObject)])
              (max [(⟨[((0 : ℝ), (0 : ℝ))], ((0 : ℝ), (0 : ℝ)), 0⟩ : MeshObject)].length
                [(⟨[((3 : ℝ), (4 : ℝ))], ((3 : ℝ), (4 : ℝ)), 0⟩ : MeshObject)].length) →
          (MotionTracker.mk false
              [(⟨[((0 : ℝ), (0 : ℝ))], ((0 : ℝ), (0 : ℝ)), 0⟩ : MeshObject)]).alignMeshes
              [(⟨[((3 : ℝ), (4 : ℝ))], ((3 : ℝ), (4 : ℝ)), 0⟩ : MeshObject)] 100 solver
            = (MotionTracker.mk false
              [(⟨[((0 : ℝ), (0 : ℝ))], ((0 : ℝ), (0 : ℝ)), 0⟩ : MeshObject)]).alignMeshes
              [(⟨[((3 : ℝ), (4 : ℝ))], ((3 : ℝ), (4 : ℝ)), 0⟩ : MeshObject)] 100 solver')) := by
  have hb : ∀ x ∈ [(⟨[((0 : ℝ), (0 : ℝ))], ((0 : ℝ), (0 : ℝ)), 0⟩ : MeshObject)]
      ++ [(⟨[((3 : ℝ), (4 : ℝ))], ((3 : ℝ), (4 : ℝ)), 0⟩ : MeshObject)],
      |x.centroid.1| ≤ FLT_MAX / 4 ∧ |x.centroid.2| ≤ FLT_MAX / 4 := by
    intro x hx
    rcases List.mem_append.1 hx with hx1 | hx2
    · rcases List.mem_singleton.1 hx1 with rfl
      constructor <;> norm_num [FLT_MAX]
    · rcases List.mem_singleton.1 hx2 with rfl
      constructor <;> norm_num [FLT_MAX]
  exact ⟨⟨by norm_num, by norm_num, hb⟩,
    cost_matrix_spec false _ _ 100 (by norm_num) (by norm_num) hb⟩

/-- Claim C1: assuming the solver returns a perfect matching over the padded
N×N matrix (N = max(N0, N1)), after `alignMeshes` every original registry
entry is classified in exactly one of two ways — updated via
`update(newMeshes[j])` for its matched column j, or absence-incremented — and
every new mesh is classified in exactly one of two ways — it caused an update
of some registry entry, or it was appended as a new registry entry (in the
bootstrap case all new meshes are appended and no matching happens). -/
theorem perfect_matching_partition (debug : Bool) (reg newMeshes : List MeshObject)
    (maxDist : ℝ) (solver : Solver) (mtch : List (ℕ × ℕ))
    (hsol : solver (costMatrix reg newMeshes) (max reg.length newMeshes.length) = mtch)
    (hpm : 0 < reg.length → IsPerfectMatching (max reg.length newMeshes.length) mtch) :
    (∀ i < reg.length,
      ExactlyOne
        (∃ j < newMeshes.length, (i, j) ∈ mtch ∧
          (((MotionTracker.mk debug reg).alignMeshes newMeshes maxDist
              solver).1).currMeshes.getD i default
            = (reg.getD i default).update (newMeshes.getD j default))
        ((((MotionTracker.mk debug reg).alignMeshes newMeshes maxDist
            solver).1).currMeshes.getD i default
          = absenceIncr (reg.getD i default)))
    ∧ (∀ j < newMeshes.length,
      ExactlyOne
        (∃ i < reg.length, (i, j) ∈ mtch ∧
          (((MotionTracker.mk debug reg).alignMeshes newMeshes maxDist
              solver).1).currMeshes.getD i default
            = (reg.getD i default).update (newMeshes.getD j default))
        (j ∈ appendedCols reg.length newMeshes.length mtch))
    ∧ (((MotionTracker.mk debug reg).alignMeshes newMeshes maxDist
          solver).1).currMeshes.drop reg.length
        = (appendedCols reg.length newMeshes.length mtch).map
            fun n => newMeshes.getD n default := by
  by_cases hz : reg.length = 0
  · rw [alignMeshes_bootstrap (MotionTracker.mk debug reg) newMeshes maxDist solver hz]
    have hreg : reg = [] := List.length_eq_zero.1 hz
    subst hreg
    refine ⟨?_, ?_, ?_⟩
    · intro i hi
      exact absurd hi (by simp)
    · intro j hj
      constructor
      · exact Or.inr (by simp [appendedCols, hj])
      · rintro ⟨⟨i, hi, _⟩, _⟩
        exact absurd hi (by simp)
    · simp only [appendedCols, if_pos rfl, List.length_nil, List.nil_append, List.drop_zero]
      exact (map_getD_range newMeshes default).symm
  · have hpm' := hpm (Nat.pos_of_ne_zero hz)
    have hnd : (mtch.map Prod.fst).Nodup := hpm'.2.2.1
    have hN0le : reg.length ≤ max reg.length newMeshes.length := Nat.le_max_left _ _
    have hN1le : newMeshes.length ≤ max reg.length newMeshes.length := Nat.le_max_right _ _
    rw [alignMeshes_currMeshes (MotionTracker.mk debug reg) newMeshes maxDist solver hz, hsol]
    have happ : appendedCols reg.length newMeshes.length mtch
        = pendingCols reg.length newMeshes.length mtch := if_neg hz
    refine ⟨?_, ?_, ?_⟩
    · intro i hi
      obtain ⟨j0, hj0⟩ := pm_row_exists hpm' (lt_of_lt_of_le hi hN0le)
      by_cases hj0N1 : j0 < newMeshes.length
      · constructor
        · exact Or.inl ⟨j0, hj0N1, hj0,
            by rw [alignCore_getD_mem _ _ _ _ _ hnd hj0 hi, if_pos hj0N1]⟩
        · rintro ⟨-, hB⟩
          rw [alignCore_getD_mem _ _ _ _ _ hnd hj0 hi, if_pos hj0N1] at hB
          have := congrArg MeshObject.lengthOfAbsence hB
          simp [MeshObject.update, absenceIncr] at this
      · constructor
        · exact Or.inr (by rw [alignCore_getD_mem _ _ _ _ _ hnd hj0 hi, if_neg hj0N1])
        · rintro ⟨⟨j, hjN1, hjmem, -⟩, -⟩
          exact hj0N1 (pm_row_unique hpm' hj0 hjmem ▸ hjN1)
    · intro j hj
      obtain ⟨i0, hi0⟩ := pm_col_exists hpm' (lt_of_lt_of_le hj hN1le)
      by_cases hi0N0 : i0 < reg.length
      · constructor
        · exact Or.inl ⟨i0, hi0N0, hi0,
            by rw [alignCore_getD_mem _ _ _ _ _ hnd hi0 hi0N0, if_pos hj]⟩
        · rintro ⟨-, hB⟩
          rw [happ] at hB
          rcases List.mem_filterMap.1 hB with ⟨p, hpmem, hpcond⟩
          by_cases hc : reg.length ≤ p.1 ∧ p.2 < newMeshes.length
          · rw [if_pos hc] at hpcond
            have hp2 : p.2 = j := Option.some.inj hpcond
            have hpj : (p.1, j) ∈ mtch := by
              rw [← hp2]
              simpa using hpmem
            have := pm_col_unique hpm' hpj hi0
            omega
          · rw [if_neg hc] at hpcond
            exact Option.noConfusion hpcond
      · constructor
        · refine Or.inr ?_
          rw [happ]
          exact List.mem_filterMap.2 ⟨(i0, j), hi0,
            by rw [if_pos ⟨Nat.le_of_not_lt hi0N0, hj⟩]⟩
        · rintro ⟨⟨i, hiN0, himem, -⟩, -⟩
          exact hi0N0 (pm_col_unique hpm' hi0 himem ▸ hiN0)
    · rw [alignCore_drop, happ]

/-- Witness for claim C1 at a concrete instance (one old mesh, two new). -/
theorem perfect_matching_partition_witness :
    (((fun _ _ => [(0, 1), (1, 0)]) : Solver) (costMatrix [(⟨[((1 : ℝ), (1 : ℝ))], ((1 : ℝ), (1 : ℝ)), 3⟩ : MeshObject)] [(⟨[((1 : ℝ), (2 : ℝ))], ((1 : ℝ), (2 : ℝ)), 0⟩ : MeshObject), (⟨[((5 : ℝ), (5 : ℝ))], ((5 : ℝ), (5 : ℝ)), 0⟩ : MeshObject)]) 2
      = [(0, 1), (1, 0)])
    ∧ (0 < 1 → IsPerfectMatching 2 [(0, 1), (1, 0)])
    ∧ ((∀ i < 1,
      ExactlyOne
        (∃ j < 2, (i, j) ∈ [(0, 1), (1, 0)] ∧
          (((MotionTracker.mk false [(⟨[((1 : ℝ), (1 : ℝ))], ((1 : ℝ), (1 : ℝ)), 3⟩ : MeshObject)]).alignMeshes [(⟨[((1 : ℝ), (2 : ℝ))], ((1 : ℝ), (2 : ℝ)), 0⟩ : MeshObject), (⟨[((5 : ℝ), (5 : ℝ))], ((5 : ℝ), (5 : ℝ)), 0⟩ : MeshObject)] 9 (fun _ _ => [(0, 1), (1, 0)])).1).currMeshes.getD i default
            = ([(⟨[((1 : ℝ), (1 : ℝ))], ((1 : ℝ), (1 : ℝ)), 3⟩ : MeshObject)].getD i default).update ([(⟨[((1 : ℝ), (2 : ℝ))], ((1 : ℝ), (2 : ℝ)), 0⟩ : MeshObject), (⟨[((5 : ℝ), (5 : ℝ))], ((5 : ℝ), (5 : ℝ)), 0⟩ : MeshObject)].getD j default))
        ((((MotionTracker.mk false [(⟨[((1 : ℝ), (1 : ℝ))], ((1 : ℝ), (1 : ℝ)), 3⟩ : MeshObject)]).alignMeshes [(⟨[((1 : ℝ), (2 : ℝ))], ((1 : ℝ), (2 : ℝ)), 0⟩ : MeshObject), (⟨[((5 : ℝ), (5 : ℝ))], ((5 : ℝ), (5 : ℝ)), 0⟩ : MeshObject)] 9 (fun _ _ => [(0, 1), (1, 0)])).1).currMeshes.getD i default
          = absenceIncr ([(⟨[((1 : ℝ), (1 : ℝ))], ((1 : ℝ), (1 : ℝ)), 3⟩ : MeshObject)].getD i default)))
    ∧ (∀ j < 2,
      ExactlyOne
        (∃ i < 1, (i, j) ∈ [(0, 1), (1, 0)] ∧
          (((MotionTracker.mk false [(⟨[((1 : ℝ), (1 : ℝ))], ((1 : ℝ), (1 : ℝ)), 3⟩ : MeshObject)]).alignMeshes [(⟨[((1 : ℝ), (2 : ℝ))], ((1 : ℝ), (2 : ℝ)), 0⟩ : MeshObject), (⟨[((5 : ℝ), (5 : ℝ))], ((5 : ℝ), (5 : ℝ)), 0⟩ : MeshObject)] 9 (fun _ _ => [(0, 1), (1, 0)])).1).currMeshes.getD i default
            = ([(⟨[((1 : ℝ), (1 : ℝ))], ((1 : ℝ), (1 : ℝ)), 3⟩ : MeshObject)].getD i default).update ([(⟨[((1 : ℝ), (2 : ℝ))], ((1 : ℝ), (2 : ℝ)), 0⟩ : MeshObject), (⟨[((5 : ℝ), (5 : ℝ))], ((5 : ℝ), (5 : ℝ)), 0⟩ : MeshObject)].getD j default))
        (j ∈ appendedCols 1 2 [(0, 1), (1, 0)]))
    ∧ (((MotionTracker.mk false [(⟨[((1 : ℝ), (1 : ℝ))], ((1 : ℝ), (1 : ℝ)), 3⟩ : MeshObject)]).alignMeshes [(⟨[((1 : ℝ), (2 : ℝ))], ((1 : ℝ), (2 : ℝ)), 0⟩ : MeshObject), (⟨[((5 : ℝ), (5 : ℝ))], ((5 : ℝ), (5 : ℝ)), 0⟩ : MeshObject)] 9 (fun _ _ => [(0, 1), (1, 0)])).1).currMeshes.drop 1
        = (appendedCols 1 2 [(0, 1), (1, 0)]).map
            fun n => [(⟨[((1 : ℝ), (2 : ℝ))], ((1 : ℝ), (2 : ℝ)), 0⟩ : MeshObject), (⟨[((5 : ℝ), (5 : ℝ))], ((5 : ℝ), (5 : ℝ)), 0⟩ : MeshObject)].getD n default) :=
  ⟨rfl, fun _ => by decide,
    perfect_matching_partition false [(⟨[((1 : ℝ), (1 : ℝ))], ((1 : ℝ), (1 : ℝ)), 3⟩ : MeshObject)] [(⟨[((1 : ℝ), (2 : ℝ))], ((1 : ℝ), (2 : ℝ)), 0⟩ : MeshObject), (⟨[((5 : ℝ), (5 : ℝ))], ((5 : ℝ), (5 : ℝ)), 0⟩ : MeshObject)] 9 (fun _ _ => [(0, 1), (1, 0)])
      [(0, 1), (1, 0)] rfl (fun _ => by decide)⟩

theorem ext_getD {α : Type*} [Inhabited α] (l1 l2 : List α) (hl : l1.length = l2.length)
    (h : ∀ i < l1.length, l1.getD i default = l2.getD i default) : l1 = l2 := by
  apply List.ext_getElem hl
  intro n h1 h2
  have hx := h n h1
  rwa [List.getD_eq_getElem _ _ h1, List.getD_eq_getElem _ _ h2] at hx

theorem alignCore_empty_new (reg : List MeshObject) (mtch : List (ℕ × ℕ))
    (hpm : IsPerfectMatching reg.length mtch) :
    alignCore reg [] mtch = reg.map absenceIncr := by
  have hpend : pendingCols reg.length (List.length ([] : List MeshObject)) mtch = [] := by
    unfold pendingCols
    rw [List.filterMap_eq_nil_iff]
    intro p hp
    rw [if_neg]
    rintro ⟨-, h2⟩
    simp at h2
  apply ext_getD
  · rw [alignCore_length, hpend]
    simp
  · intro i hi
    rw [alignCore_length, hpend] at hi
    have hiN : i < reg.length := by simpa using hi
    obtain ⟨j, hj⟩ := pm_row_exists hpm hiN
    rw [alignCore_getD_mem _ _ _ _ _ hpm.2.2.1 hj hiN, if_neg (by simp),
      getD_map_lt absenceIncr reg i default default hiN]

theorem alignMeshes_fst (t : MotionTracker) (newMeshes : List MeshObject)
    (maxDist : ℝ) (solver : Solver) :
    (t.alignMeshes newMeshes maxDist solver).1
      = MotionTracker.mk t.debug (((t.alignMeshes newMeshes maxDist solver).1).currMeshes) := by
  unfold MotionTracker.alignMeshes
  by_cases h : t.currMeshes.length = 0 <;> simp [h]

/-- Claim C4: starting from a non-empty registry, k consecutive `alignMeshes`
calls with an empty `newMeshes` list — each with a solver returning a perfect
matching over the N0×N0 matrix — increment every entry's `lengthOfAbsence` by
exactly k, change nothing else, and append no entries. -/
theorem absence_accumulation (debug : Bool) (reg : List MeshObject) (maxDist : ℝ)
    (ms : List (List (ℕ × ℕ))) (hne : reg ≠ [])
    (hpm : ∀ mt ∈ ms, IsPerfectMatching reg.length mt) :
    (ms.foldl (fun t mt => (t.alignMeshes [] maxDist (fun _ _ => mt)).1)
        (MotionTracker.mk debug reg)).currMeshes
      = reg.map fun m =>
          { m with lengthOfAbsence := m.lengthOfAbsence + ms.length } := by
  induction ms generalizing reg with
  | nil =>
    simp only [List.foldl_nil, List.length_nil, Nat.add_zero]
    exact (List.map_id' reg).symm
  | cons mt rest ih =>
    have hlen : reg.length ≠ 0 := by simpa using hne
    have hstep : ((MotionTracker.mk debug reg).alignMeshes [] maxDist (fun _ _ => mt)).1
        = MotionTracker.mk debug (reg.map absenceIncr) := by
      rw [alignMeshes_fst]
      congr 1
      rw [alignMeshes_currMeshes _ _ _ _ hlen]
      exact alignCore_empty_new reg mt (hpm mt (List.mem_cons_self _ _))
    rw [List.foldl_cons, hstep,
      ih (reg.map absenceIncr) (by simpa using hne)
        (fun mt' hmt' => by
          rw [List.length_map]
          exact hpm mt' (List.mem_cons_of_mem _ hmt')),
      List.map_map]
    refine List.map_congr_left ?_
    intro m _
    simp only [Function.comp, absenceIncr, List.length_cons]
    congr 1
    omega

/-- Witness for claim C4: two consecutive empty frames on a one-entry
registry. -/
theorem absence_accumulation_witness :
    ([(⟨[((2 : ℝ), (3 : ℝ))], ((2 : ℝ), (3 : ℝ)), 5⟩ : MeshObject)] : List MeshObject) ≠ []
    ∧ (∀ mt ∈ [[((0 : ℕ), (0 : ℕ))], [((0 : ℕ), (0 : ℕ))]],
        IsPerfectMatching
          [(⟨[((2 : ℝ), (3 : ℝ))], ((2 : ℝ), (3 : ℝ)), 5⟩ : MeshObject)].length mt)
    ∧ ([[((0 : ℕ), (0 : ℕ))], [((0 : ℕ), (0 : ℕ))]].foldl
          (fun t mt => (t.alignMeshes [] 4 (fun _ _ => mt)).1)
          (MotionTracker.mk true
            [(⟨[((2 : ℝ), (3 : ℝ))], ((2 : ℝ), (3 : ℝ)), 5⟩ : MeshObject)])).currMeshes
        = [(⟨[((2 : ℝ), (3 : ℝ))], ((2 : ℝ), (3 : ℝ)), 5⟩ : MeshObject)].map fun m =>
            { m with lengthOfAbsence := m.lengthOfAbsence + 2 } :=
  ⟨by simp, by decide,
    absence_accumulation true [(⟨[((2 : ℝ), (3 : ℝ))], ((2 : ℝ), (3 : ℝ)), 5⟩ : MeshObject)]
      4 [[((0 : ℕ), (0 : ℕ))], [((0 : ℕ), (0 : ℕ))]] (by simp) (by decide)⟩

theorem pendingCols_lt (N0 N1 : ℕ) (mtch : List (ℕ × ℕ)) :
    ∀ n ∈ pendingCols N0 N1 mtch, n < N1 := by
  intro n hn
  rcases List.mem_filterMap.1 hn with ⟨p, hp, hcond⟩
  by_cases hc : N0 ≤ p.1 ∧ p.2 < N1
  · rw [if_pos hc] at hcond
    have := Option.some.inj hcond
    omega
  · rw [if_neg hc] at hcond
    exact Option.noConfusion hcond

/-- Claim C5 counterexample: a mesh marked as pending addition is appended
verbatim (`this->currMeshes.push_back(newMeshes[n])`, line 175) with no
absence-counter reset: with a 1-entry registry, solver pairs [(0,0),(1,1)]
(a perfect matching over the padded 2×2 matrix) and a second new mesh
carrying `lengthOfAbsence = 7`, the appended registry entry keeps
`lengthOfAbsence = 7`, refuting "appended ... with lengthOfAbsence = 0". -/
theorem pending_not_reset_counterexample :
    IsPerfectMatching 2 [(0, 0), (1, 1)]
    ∧ ¬ (∀ m ∈ (((MotionTracker.mk false
          [(⟨[((0 : ℝ), (0 : ℝ))], ((0 : ℝ), (0 : ℝ)), 0⟩ : MeshObject)]).alignMeshes
          [(⟨[((0 : ℝ), (1 : ℝ))], ((0 : ℝ), (1 : ℝ)), 0⟩ : MeshObject),
           ⟨[((4 : ℝ), (4 : ℝ))], ((4 : ℝ), (4 : ℝ)), 7⟩] 3
          (fun _ _ => [(0, 0), (1, 1)])).1).currMeshes.drop 1,
        m.lengthOfAbsence = 0) := by
  refine ⟨by decide, ?_⟩
  intro hall
  have hmem : (⟨[((4 : ℝ), (4 : ℝ))], ((4 : ℝ), (4 : ℝ)), 7⟩ : MeshObject)
      ∈ (((MotionTracker.mk false
          [(⟨[((0 : ℝ), (0 : ℝ))], ((0 : ℝ), (0 : ℝ)), 0⟩ : MeshObject)]).alignMeshes
          [(⟨[((0 : ℝ), (1 : ℝ))], ((0 : ℝ), (1 : ℝ)), 0⟩ : MeshObject),
           ⟨[((4 : ℝ), (4 : ℝ))], ((4 : ℝ), (4 : ℝ)), 7⟩] 3
          (fun _ _ => [(0, 0), (1, 1)])).1).currMeshes.drop 1 := by
    rw [show (((MotionTracker.mk false
          [(⟨[((0 : ℝ), (0 : ℝ))], ((0 : ℝ), (0 : ℝ)), 0⟩ : MeshObject)]).alignMeshes
          [(⟨[((0 : ℝ), (1 : ℝ))], ((0 : ℝ), (1 : ℝ)), 0⟩ : MeshObject),
           ⟨[((4 : ℝ), (4 : ℝ))], ((4 : ℝ), (4 : ℝ)), 7⟩] 3
          (fun _ _ => [(0, 0), (1, 1)])).1).currMeshes.drop 1
        = [⟨[((4 : ℝ), (4 : ℝ))], ((4 : ℝ), (4 : ℝ)), 7⟩] from rfl]
    exact List.mem_singleton.2 rfl
  have := hall _ hmem
  exact absurd this (by decide)

/-- Claim C5 (amended): in every non-bootstrap call, the meshes marked as
pending additions (pair row ≥ N0, column < N1) are appended verbatim at the
registry tail only after the classification loop over the original N0 entries
has finished: the first N0 result entries are exactly the classification
output, the tail is exactly the pending new meshes in queue order, and each
appended entry equals its input mesh — hence it has `lengthOfAbsence = 0`
whenever every input mesh is fresh. -/
theorem pending_additions_deferred (debug : Bool) (reg newMeshes : List MeshObject)
    (maxDist : ℝ) (solver : Solver) (mtch : List (ℕ × ℕ))
    (hz : reg.length ≠ 0)
    (hsol : solver (costMatrix reg newMeshes) (max reg.length newMeshes.length) = mtch) :
    ((((MotionTracker.mk debug reg).alignMeshes newMeshes maxDist
          solver).1).currMeshes.take reg.length
        = (mtch.foldl (classifyStep reg.length newMeshes.length newMeshes) (reg, [])).1)
    ∧ (((MotionTracker.mk debug reg).alignMeshes newMeshes maxDist
          solver).1).currMeshes.drop reg.length
        = (pendingCols reg.length newMeshes.length mtch).map
            (fun n => newMeshes.getD n default)
    ∧ ((∀ m ∈ newMeshes, m.lengthOfAbsence = 0) →
        ∀ m ∈ (((MotionTracker.mk debug reg).alignMeshes newMeshes maxDist
            solver).1).currMeshes.drop reg.length,
          m.lengthOfAbsence = 0) := by
  rw [alignMeshes_currMeshes (MotionTracker.mk debug reg) newMeshes maxDist solver hz, hsol]
  refine ⟨alignCore_take _ _ _, alignCore_drop _ _ _, ?_⟩
  intro hfresh m hm
  rw [alignCore_drop] at hm
  rcases List.mem_map.1 hm with ⟨n, hn, rfl⟩
  exact hfresh _ (getD_mem _ _ _ (pendingCols_lt _ _ _ n hn))

/-- Witness for the amended claim C5 at a concrete 1→2 instance. -/
theorem pending_additions_deferred_witness :
    ([(⟨[((0 : ℝ), (0 : ℝ))], ((0 : ℝ), (0 : ℝ)), 0⟩ : MeshObject)].length ≠ 0)
    ∧ (((fun _ _ => [(0, 0), (1, 1)]) : Solver)
        (costMatrix [(⟨[((0 : ℝ), (0 : ℝ))], ((0 : ℝ), (0 : ℝ)), 0⟩ : MeshObject)]
          [(⟨[((0 : ℝ), (1 : ℝ))], ((0 : ℝ), (1 : ℝ)), 0⟩ : MeshObject),
           ⟨[((2 : ℝ), (2 : ℝ))], ((2 : ℝ), (2 : ℝ)), 0⟩]) 2
      = [(0, 0), (1, 1)])
    ∧ (((((MotionTracker.mk true
          [(⟨[((0 : ℝ), (0 : ℝ))], ((0 : ℝ), (0 : ℝ)), 0⟩ : MeshObject)]).alignMeshes
          [(⟨[((0 : ℝ), (1 : ℝ))], ((0 : ℝ), (1 : ℝ)), 0⟩ : MeshObject),
           ⟨[((2 : ℝ), (2 : ℝ))], ((2 : ℝ), (2 : ℝ)), 0⟩] 3
          (fun _ _ => [(0, 0), (1, 1)])).1).currMeshes.take 1
        = ([(0, 0), (1, 1)].foldl
            (classifyStep 1 2
              [(⟨[((0 : ℝ), (1 : ℝ))], ((0 : ℝ), (1 : ℝ)), 0⟩ : MeshObject),
               ⟨[((2 : ℝ), (2 : ℝ))], ((2 : ℝ), (2 : ℝ)), 0⟩])
            ([(⟨[((0 : ℝ), (0 : ℝ))], ((0 : ℝ), (0 : ℝ)), 0⟩ : MeshObject)], [])).1)
      ∧ (((MotionTracker.mk true
          [(⟨[((0 : ℝ), (0 : ℝ))], ((0 : ℝ), (0 : ℝ)), 0⟩ : MeshObject)]).alignMeshes
          [(⟨[((0 : ℝ), (1 : ℝ))], ((0 : ℝ), (1 : ℝ)), 0⟩ : MeshObject),
           ⟨[((2 : ℝ), (2 : ℝ))], ((2 : ℝ), (2 : ℝ)), 0⟩] 3
          (fun _ _ => [(0, 0), (1, 1)])).1).currMeshes.drop 1
        = (pendingCols 1 2 [(0, 0), (1, 1)]).map
            (fun n =>
              [(⟨[((0 : ℝ), (1 : ℝ))], ((0 : ℝ), (1 : ℝ)), 0⟩ : MeshObject),
               ⟨[((2 : ℝ), (2 : ℝ))], ((2 : ℝ), (2 : ℝ)), 0⟩].getD n default)
      ∧ ((∀ m ∈ [(⟨[((0 : ℝ), (1 : ℝ))], ((0 : ℝ), (1 : ℝ)), 0⟩ : MeshObject),
               ⟨[((2 : ℝ), (2 : ℝ))], ((2 : ℝ), (2 : ℝ)), 0⟩], m.lengthOfAbsence = 0) →
          ∀ m ∈ (((MotionTracker.mk true
              [(⟨[((0 : ℝ), (0 : ℝ))], ((0 : ℝ), (0 : ℝ)), 0⟩ : MeshObject)]).alignMeshes
              [(⟨[((0 : ℝ), (1 : ℝ))], ((0 : ℝ), (1 : ℝ)), 0⟩ : MeshObject),
               ⟨[((2 : ℝ), (2 : ℝ))], ((2 : ℝ), (2 : ℝ)), 0⟩] 3
              (fun _ _ => [(0, 0), (1, 1)])).1).currMeshes.drop 1,
            m.lengthOfAbsence = 0)) :=
  ⟨by simp, rfl,
    pending_additions_deferred true
      [(⟨[((0 : ℝ), (0 : ℝ))], ((0 : ℝ), (0 : ℝ)), 0⟩ : MeshObject)]
      [(⟨[((0 : ℝ), (1 : ℝ))], ((0 : ℝ), (1 : ℝ)), 0⟩ : MeshObject),
       ⟨[((2 : ℝ), (2 : ℝ))], ((2 : ℝ), (2 : ℝ)), 0⟩] 3
      (fun _ _ => [(0, 0), (1, 1)]) [(0, 0), (1, 1)] (by simp) rfl⟩

/-- Claim C9: `alignMeshes` never removes a registry entry nor changes an
existing entry's position: under the solver contract, the entry at index
i < N0 is still at index i afterwards, as the same object mutated in place
(updated with its matched new mesh, or absence-incremented); new entries
appear only as an appended tail, and the final size is N0 plus the number of
unmatched new meshes (those matched to padding rows). -/
theorem no_removal_no_reorder (debug : Bool) (reg newMeshes : List MeshObject)
    (maxDist : ℝ) (solver : Solver) (mtch : List (ℕ × ℕ))
    (hsol : solver (costMatrix reg newMeshes) (max reg.length newMeshes.length) = mtch)
    (hpm : 0 < reg.length → IsPerfectMatching (max reg.length newMeshes.length) mtch) :
    (((MotionTracker.mk debug reg).alignMeshes newMeshes maxDist
        solver).1).currMeshes.length
      = reg.length + (appendedCols reg.length newMeshes.length mtch).length
    ∧ (∀ i < reg.length,
        (∃ j < newMeshes.length, (i, j) ∈ mtch ∧
          (((MotionTracker.mk debug reg).alignMeshes newMeshes maxDist
              solver).1).currMeshes.getD i default
            = (reg.getD i default).update (newMeshes.getD j default))
        ∨ (((MotionTracker.mk debug reg).alignMeshes newMeshes maxDist
            solver).1).currMeshes.getD i default
          = absenceIncr (reg.getD i default))
    ∧ (((MotionTracker.mk debug reg).alignMeshes newMeshes maxDist
          solver).1).currMeshes.drop reg.length
        = (appendedCols reg.length newMeshes.length mtch).map
            fun n => newMeshes.getD n default := by
  by_cases hz : reg.length = 0
  · rw [alignMeshes_bootstrap (MotionTracker.mk debug reg) newMeshes maxDist solver hz]
    have hreg : reg = [] := List.length_eq_zero.1 hz
    subst hreg
    refine ⟨?_, ?_, ?_⟩
    · simp [appendedCols]
    · intro i hi
      exact absurd hi (by simp)
    · simp only [appendedCols, if_pos rfl, List.length_nil, List.nil_append, List.drop_zero]
      exact (map_getD_range newMeshes default).symm
  · have hpm' := hpm (Nat.pos_of_ne_zero hz)
    have hnd : (mtch.map Prod.fst).Nodup := hpm'.2.2.1
    have hN0le : reg.length ≤ max reg.length newMeshes.length := Nat.le_max_left _ _
    rw [alignMeshes_currMeshes (MotionTracker.mk debug reg) newMeshes maxDist solver hz,
      hsol]
    have happ : appendedCols reg.length newMeshes.length mtch
        = pendingCols reg.length newMeshes.length mtch := if_neg hz
    refine ⟨?_, ?_, ?_⟩
    · rw [alignCore_length, happ]
    · intro i hi
      obtain ⟨j0, hj0⟩ := pm_row_exists hpm' (lt_of_lt_of_le hi hN0le)
      by_cases hj0N1 : j0 < newMeshes.length
      · exact Or.inl ⟨j0, hj0N1, hj0,
          by rw [alignCore_getD_mem _ _ _ _ _ hnd hj0 hi, if_pos hj0N1]⟩
      · exact Or.inr
          (by rw [alignCore_getD_mem _ _ _ _ _ hnd hj0 hi, if_neg hj0N1])
    · rw [alignCore_drop, happ]

/-- Witness for claim C9 at a concrete 2→1 instance. -/
theorem no_removal_no_reorder_witness :
    (((fun _ _ => [(0, 0), (1, 1)]) : Solver)
      (costMatrix
        [(⟨[((0 : ℝ), (0 : ℝ))], ((0 : ℝ), (0 : ℝ)), 0⟩ : MeshObject),
         ⟨[((8 : ℝ), (0 : ℝ))], ((8 : ℝ), (0 : ℝ)), 2⟩]
        [(⟨[((1 : ℝ), (0 : ℝ))], ((1 : ℝ), (0 : ℝ)), 0⟩ : MeshObject)]) 2
      = [(0, 0), (1, 1)])
    ∧ (0 < 2 → IsPerfectMatching 2 [(0, 0), (1, 1)])
    ∧ ((((MotionTracker.mk false
          [(⟨[((0 : ℝ), (0 : ℝ))], ((0 : ℝ), (0 : ℝ)), 0⟩ : MeshObject),
           ⟨[((8 : ℝ), (0 : ℝ))], ((8 : ℝ), (0 : ℝ)), 2⟩]).alignMeshes
          [(⟨[((1 : ℝ), (0 : ℝ))], ((1 : ℝ), (0 : ℝ)), 0⟩ : MeshObject)] 6
          (fun _ _ => [(0, 0), (1, 1)])).1).currMeshes.length
        = 2 + (appendedCols 2 1 [(0, 0), (1, 1)]).length
      ∧ (∀ i < 2,
          (∃ j < 1, (i, j) ∈ [(0, 0), (1, 1)] ∧
            (((MotionTracker.mk false
                [(⟨[((0 : ℝ), (0 : ℝ))], ((0 : ℝ), (0 : ℝ)), 0⟩ : MeshObject),
                 ⟨[((8 : ℝ), (0 : ℝ))], ((8 : ℝ), (0 : ℝ)), 2⟩]).alignMeshes
                [(⟨[((1 : ℝ), (0 : ℝ))], ((1 : ℝ), (0 : ℝ)), 0⟩ : MeshObject)] 6
                (fun _ _ => [(0, 0), (1, 1)])).1).currMeshes.getD i default
              = ([(⟨[((0 : ℝ), (0 : ℝ))], ((0 : ℝ), (0 : ℝ)), 0⟩ : MeshObject),
                 ⟨[((8 : ℝ), (0 : ℝ))], ((8 : ℝ), (0 : ℝ)), 2⟩].getD i default).update
                  ([(⟨[((1 : ℝ), (0 : ℝ))], ((1 : ℝ), (0 : ℝ)), 0⟩ : MeshObject)].getD j
                    default))
          ∨ (((MotionTracker.mk false
              [(⟨[((0 : ℝ), (0 : ℝ))], ((0 : ℝ), (0 : ℝ)), 0⟩ : MeshObject),
               ⟨[((8 : ℝ), (0 : ℝ))], ((8 : ℝ), (0 : ℝ)), 2⟩]).alignMeshes
              [(⟨[((1 : ℝ), (0 : ℝ))], ((1 : ℝ), (0 : ℝ)), 0⟩ : MeshObject)] 6
              (fun _ _ => [(0, 0), (1, 1)])).1).currMeshes.getD i default
            = absenceIncr
                ([(⟨[((0 : ℝ), (0 : ℝ))], ((0 : ℝ), (0 : ℝ)), 0⟩ : MeshObject),
                  ⟨[((8 : ℝ), (0 : ℝ))], ((8 : ℝ), (0 : ℝ)), 2⟩].getD i default))
      ∧ (((MotionTracker.mk false
            [(⟨[((0 : ℝ), (0 : ℝ))], ((0 : ℝ), (0 : ℝ)), 0⟩ : MeshObject),
             ⟨[((8 : ℝ), (0 : ℝ))], ((8 : ℝ), (0 : ℝ)), 2⟩]).alignMeshes
            [(⟨[((1 : ℝ), (0 : ℝ))], ((1 : ℝ), (0 : ℝ)), 0⟩ : MeshObject)] 6
            (fun _ _ => [(0, 0), (1, 1)])).1).currMeshes.drop 2
          = (appendedCols 2 1 [(0, 0), (1, 1)]).map
              fun n =>
                [(⟨[((1 : ℝ), (0 : ℝ))], ((1 : ℝ), (0 : ℝ)), 0⟩ : MeshObject)].getD n
                  default) :=
  ⟨rfl, fun _ => by decide,
    no_removal_no_reorder false
      [(⟨[((0 : ℝ), (0 : ℝ))], ((0 : ℝ), (0 : ℝ)), 0⟩ : MeshObject),
       ⟨[((8 : ℝ), (0 : ℝ))], ((8 : ℝ), (0 : ℝ)), 2⟩]
      [(⟨[((1 : ℝ), (0 : ℝ))], ((1 : ℝ), (0 : ℝ)), 0⟩ : MeshObject)] 6
      (fun _ _ => [(0, 0), (1, 1)]) [(0, 0), (1, 1)] rfl (fun _ => by decide)⟩

theorem nodup_getD_inj {α : Type*} [Inhabited α] (l : List α) (hnd : l.Nodup)
    (a b : ℕ) (ha : a < l.length) (hb : b < l.length)
    (h : l.getD a default = l.getD b default) : a = b := by
  rw [List.getD_eq_getElem _ _ ha, List.getD_eq_getElem _ _ hb] at h
  have := hnd.get_inj_iff.1 (by simpa using h : l.get ⟨a, ha⟩ = l.get ⟨b, hb⟩)
  exact congrArg Fin.val this

theorem diag_perfect (N : ℕ) :
    IsPerfectMatching N ((List.range N).map fun i => (i, i)) := by
  refine ⟨by simp, ?_, ?_, ?_⟩
  · intro p hp
    rcases List.mem_map.1 hp with ⟨i, hi, rfl⟩
    rw [List.mem_range] at hi
    exact ⟨hi, hi⟩
  · rw [List.map_map]
    have : (Prod.fst ∘ fun i : ℕ => (i, i)) = fun i : ℕ => i := rfl
    rw [this]
    simpa using List.nodup_range N
  · rw [List.map_map]
    have : (Prod.snd ∘ fun i : ℕ => (i, i)) = fun i : ℕ => i := rfl
    rw [this]
    simpa using List.nodup_range N

/-- Claim C8 (amended): for a non-empty registry and a same-size `newMeshes`
list whose centroid sequence is pointwise identical to the registry's and
whose centroids are pairwise distinct, any minimum-cost perfect matching must
be the zero-cost diagonal, so `alignMeshes` matches every mesh to itself:
every entry is updated with its own successor (absence counter 0) and the
registry size is unchanged. -/
theorem zero_displacement_identity (debug : Bool) (reg newMeshes : List MeshObject)
    (maxDist : ℝ) (solver : Solver) (mtch : List (ℕ × ℕ))
    (hne : reg.length ≠ 0)
    (hlen : newMeshes.length = reg.length)
    (hcent : newMeshes.map MeshObject.centroid = reg.map MeshObject.centroid)
    (hnd : (reg.map MeshObject.centroid).Nodup)
    (hsol : solver (costMatrix reg newMeshes) (max reg.length newMeshes.length) = mtch)
    (hpm : IsPerfectMatching (max reg.length newMeshes.length) mtch)
    (hmin : ∀ ms', IsPerfectMatching (max reg.length newMeshes.length) ms' →
      matchingCost (costMatrix reg newMeshes) mtch
        ≤ matchingCost (costMatrix reg newMeshes) ms') :
    (((MotionTracker.mk debug reg).alignMeshes newMeshes maxDist
        solver).1).currMeshes.length = reg.length
    ∧ (∀ i < reg.length,
        (((MotionTracker.mk debug reg).alignMeshes newMeshes maxDist
            solver).1).currMeshes.getD i default
          = (reg.getD i default).update (newMeshes.getD i default))
    ∧ (∀ i < reg.length,
        ((((MotionTracker.mk debug reg).alignMeshes newMeshes maxDist
            solver).1).currMeshes.getD i default).lengthOfAbsence = 0) := by
  have hN : max reg.length newMeshes.length = reg.length := by rw [hlen, max_self]
  have hcentD : ∀ k < reg.length,
      (newMeshes.getD k default).centroid = (reg.getD k default).centroid := by
    intro k hk
    have h1 : (newMeshes.map MeshObject.centroid).getD k default
        = (reg.map MeshObject.centroid).getD k default := by rw [hcent]
    rwa [getD_map_lt MeshObject.centroid newMeshes k default default (by omega),
      getD_map_lt MeshObject.centroid reg k default default hk] at h1
  have hdiag0 : matchingCost (costMatrix reg newMeshes)
      ((List.range (max reg.length newMeshes.length)).map fun i => (i, i)) = 0 := by
    unfold matchingCost
    apply List.sum_eq_zero
    intro x hx
    rw [List.map_map] at hx
    rcases List.mem_map.1 hx with ⟨i, hi, rfl⟩
    rw [List.mem_range, hN] at hi
    show costMatrix reg newMeshes i i = 0
    rw [costMatrix_apply, if_pos ⟨hi, by omega⟩, hcentD i hi]
    exact _dist_self _
  have hdiagpm : IsPerfectMatching (max reg.length newMeshes.length)
      ((List.range (max reg.length newMeshes.length)).map fun i => (i, i)) :=
    diag_perfect _
  have hcost0 : matchingCost (costMatrix reg newMeshes) mtch ≤ 0 :=
    hdiag0 ▸ hmin _ hdiagpm
  have hcost0' : (mtch.map fun q => costMatrix reg newMeshes q.1 q.2).sum ≤ 0 := hcost0
  have hterms : ∀ p ∈ mtch, costMatrix reg newMeshes p.1 p.2 = 0 := by
    intro p hp
    have hx : costMatrix reg newMeshes p.1 p.2
        ∈ mtch.map fun q => costMatrix reg newMeshes q.1 q.2 :=
      List.mem_map_of_mem _ hp
    exact sum_eq_zero_of_nonneg (mtch.map fun q => costMatrix reg newMeshes q.1 q.2)
      (fun x hxm => by
        rcases List.mem_map.1 hxm with ⟨q, hq, rfl⟩
        exact costMatrix_nonneg _ _ _ _)
      hcost0' _ hx
  have hdiagall : ∀ p ∈ mtch, p.1 = p.2 := by
    intro p hp
    obtain ⟨hp1, hp2⟩ := pm_mem_lt hpm hp
    rw [hN] at hp1 hp2
    have h0 := hterms p hp
    rw [costMatrix_apply, if_pos ⟨hp1, by omega⟩, hcentD p.2 hp2] at h0
    have hcc := (_dist_eq_zero_iff _ _).1 h0
    apply nodup_getD_inj (reg.map MeshObject.centroid) hnd p.1 p.2
      (by simpa) (by simpa)
    rw [getD_map_lt MeshObject.centroid reg p.1 default default hp1,
      getD_map_lt MeshObject.centroid reg p.2 default default hp2]
    exact hcc
  have hupd : ∀ i < reg.length,
      (((MotionTracker.mk debug reg).alignMeshes newMeshes maxDist
          solver).1).currMeshes.getD i default
        = (reg.getD i default).update (newMeshes.getD i default) := by
    intro i hi
    rw [alignMeshes_currMeshes _ _ _ _ hne, hsol]
    obtain ⟨j, hj⟩ := pm_row_exists hpm (lt_of_lt_of_le hi (Nat.le_max_left _ _))
    have hji : j = i := (hdiagall (i, j) hj).symm
    subst hji
    rw [alignCore_getD_mem _ _ _ _ _ hpm.2.2.1 hj hi, if_pos (by omega)]
  have hpend : pendingCols reg.length newMeshes.length mtch = [] := by
    unfold pendingCols
    rw [List.filterMap_eq_nil_iff]
    intro p hp
    rw [if_neg]
    rintro ⟨hc1, -⟩
    have h12 := hdiagall p hp
    have h1 := (pm_mem_lt hpm hp).1
    rw [hN] at h1
    omega
  refine ⟨?_, hupd, ?_⟩
  · rw [alignMeshes_currMeshes _ _ _ _ hne, hsol, alignCore_length, hpend]
    simp
  · intro i hi
    rw [hupd i hi]
    rfl

/-- Claim C8 counterexample: with two old meshes sharing one centroid (and two
new meshes likewise), the swap [(0,1),(1,0)] is also a minimum-cost perfect
matching of the all-zero 2×2 distance matrix, and under it `alignMeshes` does
NOT match every mesh to itself — entry 0 is updated with new mesh 1 — so the
claim as stated (without pairwise-distinct centroids) is false. -/
theorem zero_displacement_counterexample :
    (([(⟨[((0 : ℝ), (0 : ℝ))], ((0 : ℝ), (0 : ℝ)), 0⟩ : MeshObject), (⟨[((1 : ℝ), (1 : ℝ))], ((0 : ℝ), (0 : ℝ)), 0⟩ : MeshObject)] : List MeshObject).length ≠ 0
    ∧ ([(⟨[((2 : ℝ), (2 : ℝ))], ((0 : ℝ), (0 : ℝ)), 0⟩ : MeshObject), (⟨[((3 : ℝ), (3 : ℝ)), ((3 : ℝ), (3 : ℝ))], ((0 : ℝ), (0 : ℝ)), 0⟩ : MeshObject)] : List MeshObject).length = ([(⟨[((0 : ℝ), (0 : ℝ))], ((0 : ℝ), (0 : ℝ)), 0⟩ : MeshObject), (⟨[((1 : ℝ), (1 : ℝ))], ((0 : ℝ), (0 : ℝ)), 0⟩ : MeshObject)] : List MeshObject).length
    ∧ ([(⟨[((2 : ℝ), (2 : ℝ))], ((0 : ℝ), (0 : ℝ)), 0⟩ : MeshObject), (⟨[((3 : ℝ), (3 : ℝ)), ((3 : ℝ), (3 : ℝ))], ((0 : ℝ), (0 : ℝ)), 0⟩ : MeshObject)] : List MeshObject).map MeshObject.centroid
        = ([(⟨[((0 : ℝ), (0 : ℝ))], ((0 : ℝ), (0 : ℝ)), 0⟩ : MeshObject), (⟨[((1 : ℝ), (1 : ℝ))], ((0 : ℝ), (0 : ℝ)), 0⟩ : MeshObject)] : List MeshObject).map MeshObject.centroid
    ∧ ((fun _ _ => [(0, 1), (1, 0)]) : Solver) (costMatrix [(⟨[((0 : ℝ), (0 : ℝ))], ((0 : ℝ), (0 : ℝ)), 0⟩ : MeshObject), (⟨[((1 : ℝ), (1 : ℝ))], ((0 : ℝ), (0 : ℝ)), 0⟩ : MeshObject)] [(⟨[((2 : ℝ), (2 : ℝ))], ((0 : ℝ), (0 : ℝ)), 0⟩ : MeshObject), (⟨[((3 : ℝ), (3 : ℝ)), ((3 : ℝ), (3 : ℝ))], ((0 : ℝ), (0 : ℝ)), 0⟩ : MeshObject)]) 2
        = [(0, 1), (1, 0)]
    ∧ IsPerfectMatching 2 [(0, 1), (1, 0)]
    ∧ (∀ ms', IsPerfectMatching 2 ms' →
        matchingCost (costMatrix [(⟨[((0 : ℝ), (0 : ℝ))], ((0 : ℝ), (0 : ℝ)), 0⟩ : MeshObject), (⟨[((1 : ℝ), (1 : ℝ))], ((0 : ℝ), (0 : ℝ)), 0⟩ : MeshObject)] [(⟨[((2 : ℝ), (2 : ℝ))], ((0 : ℝ), (0 : ℝ)), 0⟩ : MeshObject), (⟨[((3 : ℝ), (3 : ℝ)), ((3 : ℝ), (3 : ℝ))], ((0 : ℝ), (0 : ℝ)), 0⟩ : MeshObject)]) [(0, 1), (1, 0)]
          ≤ matchingCost (costMatrix [(⟨[((0 : ℝ), (0 : ℝ))], ((0 : ℝ), (0 : ℝ)), 0⟩ : MeshObject), (⟨[((1 : ℝ), (1 : ℝ))], ((0 : ℝ), (0 : ℝ)), 0⟩ : MeshObject)] [(⟨[((2 : ℝ), (2 : ℝ))], ((0 : ℝ), (0 : ℝ)), 0⟩ : MeshObject), (⟨[((3 : ℝ), (3 : ℝ)), ((3 : ℝ), (3 : ℝ))], ((0 : ℝ), (0 : ℝ)), 0⟩ : MeshObject)]) ms'))
    ∧ ¬ (∀ i < ([(⟨[((0 : ℝ), (0 : ℝ))], ((0 : ℝ), (0 : ℝ)), 0⟩ : MeshObject), (⟨[((1 : ℝ), (1 : ℝ))], ((0 : ℝ), (0 : ℝ)), 0⟩ : MeshObject)] : List MeshObject).length,
        (((MotionTracker.mk false [(⟨[((0 : ℝ), (0 : ℝ))], ((0 : ℝ), (0 : ℝ)), 0⟩ : MeshObject), (⟨[((1 : ℝ), (1 : ℝ))], ((0 : ℝ), (0 : ℝ)), 0⟩ : MeshObject)]).alignMeshes [(⟨[((2 : ℝ), (2 : ℝ))], ((0 : ℝ), (0 : ℝ)), 0⟩ : MeshObject), (⟨[((3 : ℝ), (3 : ℝ)), ((3 : ℝ), (3 : ℝ))], ((0 : ℝ), (0 : ℝ)), 0⟩ : MeshObject)] 5 (fun _ _ => [(0, 1), (1, 0)])).1).currMeshes.getD i default
          = (([(⟨[((0 : ℝ), (0 : ℝ))], ((0 : ℝ), (0 : ℝ)), 0⟩ : MeshObject), (⟨[((1 : ℝ), (1 : ℝ))], ((0 : ℝ), (0 : ℝ)), 0⟩ : MeshObject)] : List MeshObject).getD i default).update
              (([(⟨[((2 : ℝ), (2 : ℝ))], ((0 : ℝ), (0 : ℝ)), 0⟩ : MeshObject), (⟨[((3 : ℝ), (3 : ℝ)), ((3 : ℝ), (3 : ℝ))], ((0 : ℝ), (0 : ℝ)), 0⟩ : MeshObject)] : List MeshObject).getD i default)) := by
  have e1 : costMatrix [(⟨[((0 : ℝ), (0 : ℝ))], ((0 : ℝ), (0 : ℝ)), 0⟩ : MeshObject), (⟨[((1 : ℝ), (1 : ℝ))], ((0 : ℝ), (0 : ℝ)), 0⟩ : MeshObject)] [(⟨[((2 : ℝ), (2 : ℝ))], ((0 : ℝ), (0 : ℝ)), 0⟩ : MeshObject), (⟨[((3 : ℝ), (3 : ℝ)), ((3 : ℝ), (3 : ℝ))], ((0 : ℝ), (0 : ℝ)), 0⟩ : MeshObject)] 0 1 = 0 := by
    rw [costMatrix_apply, if_pos ⟨by decide, by decide⟩]
    exact _dist_self _
  have e2 : costMatrix [(⟨[((0 : ℝ), (0 : ℝ))], ((0 : ℝ), (0 : ℝ)), 0⟩ : MeshObject), (⟨[((1 : ℝ), (1 : ℝ))], ((0 : ℝ), (0 : ℝ)), 0⟩ : MeshObject)] [(⟨[((2 : ℝ), (2 : ℝ))], ((0 : ℝ), (0 : ℝ)), 0⟩ : MeshObject), (⟨[((3 : ℝ), (3 : ℝ)), ((3 : ℝ), (3 : ℝ))], ((0 : ℝ), (0 : ℝ)), 0⟩ : MeshObject)] 1 0 = 0 := by
    rw [costMatrix_apply, if_pos ⟨by decide, by decide⟩]
    exact _dist_self _
  refine ⟨⟨by simp, rfl, rfl, rfl, by decide, ?_⟩, ?_⟩
  · intro ms' hms'
    have hz : matchingCost (costMatrix [(⟨[((0 : ℝ), (0 : ℝ))], ((0 : ℝ), (0 : ℝ)), 0⟩ : MeshObject), (⟨[((1 : ℝ), (1 : ℝ))], ((0 : ℝ), (0 : ℝ)), 0⟩ : MeshObject)] [(⟨[((2 : ℝ), (2 : ℝ))], ((0 : ℝ), (0 : ℝ)), 0⟩ : MeshObject), (⟨[((3 : ℝ), (3 : ℝ)), ((3 : ℝ), (3 : ℝ))], ((0 : ℝ), (0 : ℝ)), 0⟩ : MeshObject)]) [(0, 1), (1, 0)] = 0 := by
      show costMatrix [(⟨[((0 : ℝ), (0 : ℝ))], ((0 : ℝ), (0 : ℝ)), 0⟩ : MeshObject), (⟨[((1 : ℝ), (1 : ℝ))], ((0 : ℝ), (0 : ℝ)), 0⟩ : MeshObject)] [(⟨[((2 : ℝ), (2 : ℝ))], ((0 : ℝ), (0 : ℝ)), 0⟩ : MeshObject), (⟨[((3 : ℝ), (3 : ℝ)), ((3 : ℝ), (3 : ℝ))], ((0 : ℝ), (0 : ℝ)), 0⟩ : MeshObject)] 0 1 + (costMatrix [(⟨[((0 : ℝ), (0 : ℝ))], ((0 : ℝ), (0 : ℝ)), 0⟩ : MeshObject), (⟨[((1 : ℝ), (1 : ℝ))], ((0 : ℝ), (0 : ℝ)), 0⟩ : MeshObject)] [(⟨[((2 : ℝ), (2 : ℝ))], ((0 : ℝ), (0 : ℝ)), 0⟩ : MeshObject), (⟨[((3 : ℝ), (3 : ℝ)), ((3 : ℝ), (3 : ℝ))], ((0 : ℝ), (0 : ℝ)), 0⟩ : MeshObject)] 1 0 + 0) = 0
      rw [e1, e2]
      norm_num
    rw [hz]
    exact matchingCost_nonneg _ _ fun p _ => costMatrix_nonneg _ _ _ _
  · intro hall
    have h := hall 0 (by decide)
    have hlen2 := congrArg (fun m : MeshObject => m.points.length) h
    exact absurd hlen2 (by decide)

/-- Witness for the amended claim C8: two distinct centroids, identical
centroid sequences, diagonal solver output. -/
theorem zero_displacement_identity_witness :
    (([(⟨[((0 : ℝ), (0 : ℝ))], ((0 : ℝ), (0 : ℝ)), 1⟩ : MeshObject), (⟨[((1 : ℝ), (0 : ℝ))], ((1 : ℝ), (0 : ℝ)), 0⟩ : MeshObject)] : List MeshObject).length ≠ 0
    ∧ ([(⟨[((0 : ℝ), (0 : ℝ))], ((0 : ℝ), (0 : ℝ)), 0⟩ : MeshObject), (⟨[((1 : ℝ), (0 : ℝ))], ((1 : ℝ), (0 : ℝ)), 0⟩ : MeshObject)] : List MeshObject).length = ([(⟨[((0 : ℝ), (0 : ℝ))], ((0 : ℝ), (0 : ℝ)), 1⟩ : MeshObject), (⟨[((1 : ℝ), (0 : ℝ))], ((1 : ℝ), (0 : ℝ)), 0⟩ : MeshObject)] : List MeshObject).length
    ∧ ([(⟨[((0 : ℝ), (0 : ℝ))], ((0 : ℝ), (0 : ℝ)), 0⟩ : MeshObject), (⟨[((1 : ℝ), (0 : ℝ))], ((1 : ℝ), (0 : ℝ)), 0⟩ : MeshObject)] : List MeshObject).map MeshObject.centroid
        = ([(⟨[((0 : ℝ), (0 : ℝ))], ((0 : ℝ), (0 : ℝ)), 1⟩ : MeshObject), (⟨[((1 : ℝ), (0 : ℝ))], ((1 : ℝ), (0 : ℝ)), 0⟩ : MeshObject)] : List MeshObject).map MeshObject.centroid
    ∧ (([(⟨[((0 : ℝ), (0 : ℝ))], ((0 : ℝ), (0 : ℝ)), 1⟩ : MeshObject), (⟨[((1 : ℝ), (0 : ℝ))], ((1 : ℝ), (0 : ℝ)), 0⟩ : MeshObject)] : List MeshObject).map MeshObject.centroid).Nodup
    ∧ ((fun _ _ => [(0, 0), (1, 1)]) : Solver) (costMatrix [(⟨[((0 : ℝ), (0 : ℝ))], ((0 : ℝ), (0 : ℝ)), 1⟩ : MeshObject), (⟨[((1 : ℝ), (0 : ℝ))], ((1 : ℝ), (0 : ℝ)), 0⟩ : MeshObject)] [(⟨[((0 : ℝ), (0 : ℝ))], ((0 : ℝ), (0 : ℝ)), 0⟩ : MeshObject), (⟨[((1 : ℝ), (0 : ℝ))], ((1 : ℝ), (0 : ℝ)), 0⟩ : MeshObject)]) 2
        = [(0, 0), (1, 1)]
    ∧ IsPerfectMatching 2 [(0, 0), (1, 1)]
    ∧ (∀ ms', IsPerfectMatching 2 ms' →
        matchingCost (costMatrix [(⟨[((0 : ℝ), (0 : ℝ))], ((0 : ℝ), (0 : ℝ)), 1⟩ : MeshObject), (⟨[((1 : ℝ), (0 : ℝ))], ((1 : ℝ), (0 : ℝ)), 0⟩ : MeshObject)] [(⟨[((0 : ℝ), (0 : ℝ))], ((0 : ℝ), (0 : ℝ)), 0⟩ : MeshObject), (⟨[((1 : ℝ), (0 : ℝ))], ((1 : ℝ), (0 : ℝ)), 0⟩ : MeshObject)]) [(0, 0), (1, 1)]
          ≤ matchingCost (costMatrix [(⟨[((0 : ℝ), (0 : ℝ))], ((0 : ℝ), (0 : ℝ)), 1⟩ : MeshObject), (⟨[((1 : ℝ), (0 : ℝ))], ((1 : ℝ), (0 : ℝ)), 0⟩ : MeshObject)] [(⟨[((0 : ℝ), (0 : ℝ))], ((0 : ℝ), (0 : ℝ)), 0⟩ : MeshObject), (⟨[((1 : ℝ), (0 : ℝ))], ((1 : ℝ), (0 : ℝ)), 0⟩ : MeshObject)]) ms'))
    ∧ ((((MotionTracker.mk false [(⟨[((0 : ℝ), (0 : ℝ))], ((0 : ℝ), (0 : ℝ)), 1⟩ : MeshObject), (⟨[((1 : ℝ), (0 : ℝ))], ((1 : ℝ), (0 : ℝ)), 0⟩ : MeshObject)]).alignMeshes [(⟨[((0 : ℝ), (0 : ℝ))], ((0 : ℝ), (0 : ℝ)), 0⟩ : MeshObject), (⟨[((1 : ℝ), (0 : ℝ))], ((1 : ℝ), (0 : ℝ)), 0⟩ : MeshObject)] 5 (fun _ _ => [(0, 0), (1, 1)])).1).currMeshes.length = ([(⟨[((0 : ℝ), (0 : ℝ))], ((0 : ℝ), (0 : ℝ)), 1⟩ : MeshObject), (⟨[((1 : ℝ), (0 : ℝ))], ((1 : ℝ), (0 : ℝ)), 0⟩ : MeshObject)] : List MeshObject).length
      ∧ (∀ i < ([(⟨[((0 : ℝ), (0 : ℝ))], ((0 : ℝ), (0 : ℝ)), 1⟩ : MeshObject), (⟨[((1 : ℝ), (0 : ℝ))], ((1 : ℝ), (0 : ℝ)), 0⟩ : MeshObject)] : List MeshObject).length,
          (((MotionTracker.mk false [(⟨[((0 : ℝ), (0 : ℝ))], ((0 : ℝ), (0 : ℝ)), 1⟩ : MeshObject), (⟨[((1 : ℝ), (0 : ℝ))], ((1 : ℝ), (0 : ℝ)), 0⟩ : MeshObject)]).alignMeshes [(⟨[((0 : ℝ), (0 : ℝ))], ((0 : ℝ), (0 : ℝ)), 0⟩ : MeshObject), (⟨[((1 : ℝ), (0 : ℝ))], ((1 : ℝ), (0 : ℝ)), 0⟩ : MeshObject)] 5 (fun _ _ => [(0, 0), (1, 1)])).1).currMeshes.getD i default
            = (([(⟨[((0 : ℝ), (0 : ℝ))], ((0 : ℝ), (0 : ℝ)), 1⟩ : MeshObject), (⟨[((1 : ℝ), (0 : ℝ))], ((1 : ℝ), (0 : ℝ)), 0⟩ : MeshObject)] : List MeshObject).getD i default).update
                (([(⟨[((0 : ℝ), (0 : ℝ))], ((0 : ℝ), (0 : ℝ)), 0⟩ : MeshObject), (⟨[((1 : ℝ), (0 : ℝ))], ((1 : ℝ), (0 : ℝ)), 0⟩ : MeshObject)] : List MeshObject).getD i default))
      ∧ (∀ i < ([(⟨[((0 : ℝ), (0 : ℝ))], ((0 : ℝ), (0 : ℝ)), 1⟩ : MeshObject), (⟨[((1 : ℝ), (0 : ℝ))], ((1 : ℝ), (0 : ℝ)), 0⟩ : MeshObject)] : List MeshObject).length,
          ((((MotionTracker.mk false [(⟨[((0 : ℝ), (0 : ℝ))], ((0 : ℝ), (0 : ℝ)), 1⟩ : MeshObject), (⟨[((1 : ℝ), (0 : ℝ))], ((1 : ℝ), (0 : ℝ)), 0⟩ : MeshObject)]).alignMeshes [(⟨[((0 : ℝ), (0 : ℝ))], ((0 : ℝ), (0 : ℝ)), 0⟩ : MeshObject), (⟨[((1 : ℝ), (0 : ℝ))], ((1 : ℝ), (0 : ℝ)), 0⟩ : MeshObject)] 5 (fun _ _ => [(0, 0), (1, 1)])).1).currMeshes.getD i default).lengthOfAbsence = 0)) := by
  have hnd : (([(⟨[((0 : ℝ), (0 : ℝ))], ((0 : ℝ), (0 : ℝ)), 1⟩ : MeshObject), (⟨[((1 : ℝ), (0 : ℝ))], ((1 : ℝ), (0 : ℝ)), 0⟩ : MeshObject)] : List MeshObject).map MeshObject.centroid).Nodup := by
    show ([((0 : ℝ), (0 : ℝ)), ((1 : ℝ), (0 : ℝ))] : List Pt).Nodup
    norm_num [List.nodup_cons, Prod.ext_iff]
  have e1 : costMatrix [(⟨[((0 : ℝ), (0 : ℝ))], ((0 : ℝ), (0 : ℝ)), 1⟩ : MeshObject), (⟨[((1 : ℝ), (0 : ℝ))], ((1 : ℝ), (0 : ℝ)), 0⟩ : MeshObject)] [(⟨[((0 : ℝ), (0 : ℝ))], ((0 : ℝ), (0 : ℝ)), 0⟩ : MeshObject), (⟨[((1 : ℝ), (0 : ℝ))], ((1 : ℝ), (0 : ℝ)), 0⟩ : MeshObject)] 0 0 = 0 := by
    rw [costMatrix_apply, if_pos ⟨by decide, by decide⟩]
    exact _dist_self _
  have e2 : costMatrix [(⟨[((0 : ℝ), (0 : ℝ))], ((0 : ℝ), (0 : ℝ)), 1⟩ : MeshObject), (⟨[((1 : ℝ), (0 : ℝ))], ((1 : ℝ), (0 : ℝ)), 0⟩ : MeshObject)] [(⟨[((0 : ℝ), (0 : ℝ))], ((0 : ℝ), (0 : ℝ)), 0⟩ : MeshObject), (⟨[((1 : ℝ), (0 : ℝ))], ((1 : ℝ), (0 : ℝ)), 0⟩ : MeshObject)] 1 1 = 0 := by
    rw [costMatrix_apply, if_pos ⟨by decide, by decide⟩]
    exact _dist_self _
  have hmin : ∀ ms', IsPerfectMatching 2 ms' →
      matchingCost (costMatrix [(⟨[((0 : ℝ), (0 : ℝ))], ((0 : ℝ), (0 : ℝ)), 1⟩ : MeshObject), (⟨[((1 : ℝ), (0 : ℝ))], ((1 : ℝ), (0 : ℝ)), 0⟩ : MeshObject)] [(⟨[((0 : ℝ), (0 : ℝ))], ((0 : ℝ), (0 : ℝ)), 0⟩ : MeshObject), (⟨[((1 : ℝ), (0 : ℝ))], ((1 : ℝ), (0 : ℝ)), 0⟩ : MeshObject)]) [(0, 0), (1, 1)]
        ≤ matchingCost (costMatrix [(⟨[((0 : ℝ), (0 : ℝ))], ((0 : ℝ), (0 : ℝ)), 1⟩ : MeshObject), (⟨[((1 : ℝ), (0 : ℝ))], ((1 : ℝ), (0 : ℝ)), 0⟩ : MeshObject)] [(⟨[((0 : ℝ), (0 : ℝ))], ((0 : ℝ), (0 : ℝ)), 0⟩ : MeshObject), (⟨[((1 : ℝ), (0 : ℝ))], ((1 : ℝ), (0 : ℝ)), 0⟩ : MeshObject)]) ms' := by
    intro ms' hms'
    have hz : matchingCost (costMatrix [(⟨[((0 : ℝ), (0 : ℝ))], ((0 : ℝ), (0 : ℝ)), 1⟩ : MeshObject), (⟨[((1 : ℝ), (0 : ℝ))], ((1 : ℝ), (0 : ℝ)), 0⟩ : MeshObject)] [(⟨[((0 : ℝ), (0 : ℝ))], ((0 : ℝ), (0 : ℝ)), 0⟩ : MeshObject), (⟨[((1 : ℝ), (0 : ℝ))], ((1 : ℝ), (0 : ℝ)), 0⟩ : MeshObject)]) [(0, 0), (1, 1)] = 0 := by
      show costMatrix [(⟨[((0 : ℝ), (0 : ℝ))], ((0 : ℝ), (0 : ℝ)), 1⟩ : MeshObject), (⟨[((1 : ℝ), (0 : ℝ))], ((1 : ℝ), (0 : ℝ)), 0⟩ : MeshObject)] [(⟨[((0 : ℝ), (0 : ℝ))], ((0 : ℝ), (0 : ℝ)), 0⟩ : MeshObject), (⟨[((1 : ℝ), (0 : ℝ))], ((1 : ℝ), (0 : ℝ)), 0⟩ : MeshObject)] 0 0 + (costMatrix [(⟨[((0 : ℝ), (0 : ℝ))], ((0 : ℝ), (0 : ℝ)), 1⟩ : MeshObject), (⟨[((1 : ℝ), (0 : ℝ))], ((1 : ℝ), (0 : ℝ)), 0⟩ : MeshObject)] [(⟨[((0 : ℝ), (0 : ℝ))], ((0 : ℝ), (0 : ℝ)), 0⟩ : MeshObject), (⟨[((1 : ℝ), (0 : ℝ))], ((1 : ℝ), (0 : ℝ)), 0⟩ : MeshObject)] 1 1 + 0) = 0
      rw [e1, e2]
      norm_num
    rw [hz]
    exact matchingCost_nonneg _ _ fun p _ => costMatrix_nonneg _ _ _ _
  exact ⟨⟨by simp, rfl, rfl, hnd, rfl, by decide, hmin⟩,
    zero_displacement_identity false [(⟨[((0 : ℝ), (0 : ℝ))], ((0 : ℝ), (0 : ℝ)), 1⟩ : MeshObject), (⟨[((1 : ℝ), (0 : ℝ))], ((1 : ℝ), (0 : ℝ)), 0⟩ : MeshObject)] [(⟨[((0 : ℝ), (0 : ℝ))], ((0 : ℝ), (0 : ℝ)), 0⟩ : MeshObject), (⟨[((1 : ℝ), (0 : ℝ))], ((1 : ℝ), (0 : ℝ)), 0⟩ : MeshObject)] 5 (fun _ _ => [(0, 0), (1, 1)])
      [(0, 0), (1, 1)] (by simp) rfl rfl hnd rfl (by decide) hmin⟩
